import Mathlib

/-!
Verification of the wazero runtime core against its specification.

This file gives a shallow embedding, in Lean 4, of the parts of the
wazero source that the checked claims are about:

* the runtime configuration surface (`config.go`: `runtimeConfig` and its
  feature setters),
* the module configuration surface (`config.go`: `moduleConfig`, its
  `With*` methods and `toSysContext`), embedded over an explicit heap so
  that Go's sharing of map references and slice backing arrays between a
  struct and its shallow copy is captured faithfully,
* the WASI host functions `args_get`, `fd_read` and `proc_exit` and the
  store operations `Instantiate` / `CloseWithExitCode` (their
  implementations are not part of the provided sources, so these are
  modelled from the specification, as marked on each definition),
* the wazeroir lowering pass (`internal/wazeroir/compiler.go`), in
  particular its unreachable-state machine and the opcode-to-operation
  dispatch.

Go strings are embedded as byte lists (`GoStr`), machine integers as
`Nat` with explicit bounds where overflow matters, and fallible code as
`Except`.
-/

namespace Wazero

/-- Go strings are immutable byte sequences; embed them as lists of bytes. -/
abbrev GoStr := List Nat

/-! ## Runtime configuration (`config.go`) -/

/-- Modelled from the spec: the feature-flag set `wasm.Features`
(`internal/wasm` is not under the provided sources). The spec lists the
flags `bulk_memory_operations`, `multi_value`, `mutable_global`,
`non_trapping_float_to_int_conversion`, `reference_types`,
`sign_extension_ops`, `simd`; in Go this is a bit set with a `Set`
method per flag, embedded here as a structure of booleans. -/
structure Features where
  mutableGlobal : Bool
  bulkMemoryOperations : Bool
  multiValue : Bool
  nonTrappingFloatToIntConversion : Bool
  referenceTypes : Bool
  signExtensionOps : Bool
  simd : Bool
deriving DecidableEq, Repr

/-- Modelled from the spec: `wasm.Features20191205` — the Wasm Core 1 preset
enables only `mutable_global`. -/
def Features20191205 : Features :=
  { mutableGlobal := true, bulkMemoryOperations := false, multiValue := false
    nonTrappingFloatToIntConversion := false, referenceTypes := false
    signExtensionOps := false, simd := false }

/-- Modelled from the spec: `wasm.Features20220419` — the Wasm Core 2 preset
enables all of the listed features. -/
def Features20220419 : Features :=
  { mutableGlobal := true, bulkMemoryOperations := true, multiValue := true
    nonTrappingFloatToIntConversion := true, referenceTypes := true
    signExtensionOps := false, simd := true }

/-- The engine choice carried by `runtimeConfig.newEngine`; only its identity
matters for the configuration claims. -/
inductive EngineKind
  | interpreterEngine
  | compilerEngine
deriving DecidableEq, Repr

/-- Embeds `runtimeConfig` of `config.go`. The Go field `newEngine` is a
constructor function; only the engine it selects is observable here. -/
structure runtimeConfig where
  enabledFeatures : Features
  newEngine : Option EngineKind
deriving DecidableEq, Repr

/-- Embeds `engineLessConfig` of `config.go`. -/
def engineLessConfig : runtimeConfig :=
  { enabledFeatures := Features20191205, newEngine := none }

/-- Embeds `NewRuntimeConfigCompiler` of `config.go`. -/
def NewRuntimeConfigCompiler : runtimeConfig :=
  { engineLessConfig with newEngine := some .compilerEngine }

/-- Embeds `NewRuntimeConfigInterpreter` of `config.go`. -/
def NewRuntimeConfigInterpreter : runtimeConfig :=
  { engineLessConfig with newEngine := some .interpreterEngine }

/-- Embeds `runtimeConfig.WithFeatureBulkMemoryOperations` of `config.go`:
sets the bulk-memory flag and, because the proposals are mutually
dependent, the reference-types flag to the same value. -/
def runtimeConfig.WithFeatureBulkMemoryOperations (c : runtimeConfig) (enabled : Bool) :
    runtimeConfig :=
  { c with enabledFeatures :=
      { c.enabledFeatures with bulkMemoryOperations := enabled, referenceTypes := enabled } }

/-- Embeds `runtimeConfig.WithFeatureMultiValue` of `config.go`. -/
def runtimeConfig.WithFeatureMultiValue (c : runtimeConfig) (enabled : Bool) : runtimeConfig :=
  { c with enabledFeatures := { c.enabledFeatures with multiValue := enabled } }

/-- Embeds `runtimeConfig.WithFeatureMutableGlobal` of `config.go`. -/
def runtimeConfig.WithFeatureMutableGlobal (c : runtimeConfig) (enabled : Bool) : runtimeConfig :=
  { c with enabledFeatures := { c.enabledFeatures with mutableGlobal := enabled } }

/-- Embeds `runtimeConfig.WithFeatureNonTrappingFloatToIntConversion` of `config.go`. -/
def runtimeConfig.WithFeatureNonTrappingFloatToIntConversion (c : runtimeConfig)
    (enabled : Bool) : runtimeConfig :=
  { c with enabledFeatures :=
      { c.enabledFeatures with nonTrappingFloatToIntConversion := enabled } }

/-- Embeds `runtimeConfig.WithFeatureReferenceTypes` of `config.go`:
sets the reference-types flag and, because the proposals are mutually
dependent, the bulk-memory flag to the same value. -/
def runtimeConfig.WithFeatureReferenceTypes (c : runtimeConfig) (enabled : Bool) :
    runtimeConfig :=
  { c with enabledFeatures :=
      { c.enabledFeatures with referenceTypes := enabled, bulkMemoryOperations := enabled } }

/-- Embeds `runtimeConfig.WithFeatureSignExtensionOps` of `config.go`. -/
def runtimeConfig.WithFeatureSignExtensionOps (c : runtimeConfig) (enabled : Bool) :
    runtimeConfig :=
  { c with enabledFeatures := { c.enabledFeatures with signExtensionOps := enabled } }

/-- Embeds `runtimeConfig.WithFeatureSIMD` of `config.go`. -/
def runtimeConfig.WithFeatureSIMD (c : runtimeConfig) (enabled : Bool) : runtimeConfig :=
  { c with enabledFeatures := { c.enabledFeatures with simd := enabled } }

/-- Embeds `runtimeConfig.WithWasmCore1` of `config.go`. -/
def runtimeConfig.WithWasmCore1 (c : runtimeConfig) : runtimeConfig :=
  { c with enabledFeatures := Features20191205 }

/-- Embeds `runtimeConfig.WithWasmCore2` of `config.go`. -/
def runtimeConfig.WithWasmCore2 (c : runtimeConfig) : runtimeConfig :=
  { c with enabledFeatures := Features20220419 }

/-! ## Module configuration (`config.go`)

`moduleConfig` is embedded over an explicit heap. A Go struct copy
(`ret := *c`) copies slice headers and map references, so the copy and the
receiver share the same backing array and hash tables; the heap makes this
sharing explicit so that mutation through one handle is observable through
the other, exactly as in Go. -/

/-- Embeds `wasm.FileEntry` as used by `config.go`: a preopen path and its
file system. The `fs.FS` interface value is opaque; only its identity and
nil-ness matter, so it is embedded as `Option Nat` with `none` for Go nil. -/
structure FileEntry where
  path : GoStr
  fs : Option Nat
deriving DecidableEq, Repr

/-- A Go `[]string` slice header: a reference into the heap plus the length.
A nil slice has no backing array. Offsets are always zero for the slices in
`config.go`, so no offset field is needed. -/
structure GoSlice where
  ref : Option Nat
  len : Nat
deriving DecidableEq, Repr

/-- The nil `[]string` slice (Go zero value). -/
def GoSlice.goNil : GoSlice := { ref := none, len := 0 }

/-- The heap holding slice backing arrays (whose stored length is the
capacity) and the hash tables of the maps used by `moduleConfig`. -/
structure Heap where
  strArrays : List (List GoStr)
  strNatMaps : List (List (GoStr × Nat))
  fdMaps : List (List (Nat × FileEntry))
deriving DecidableEq, Repr

/-- The empty heap. -/
def Heap.empty : Heap := { strArrays := [], strNatMaps := [], fdMaps := [] }

/-- Allocates a fresh string backing array. -/
def Heap.allocStrArray (h : Heap) (a : List GoStr) : Heap × Nat :=
  ({ h with strArrays := h.strArrays ++ [a] }, h.strArrays.length)

/-- Reads a string backing array (out-of-range reads yield the empty array;
they do not occur on well-formed states). -/
def Heap.readStrArray (h : Heap) (r : Nat) : List GoStr :=
  h.strArrays.getD r []

/-- Writes one element of a string backing array in place. -/
def Heap.writeStrArray (h : Heap) (r i : Nat) (v : GoStr) : Heap :=
  { h with strArrays := h.strArrays.set r ((h.readStrArray r).set i v) }

/-- Allocates a fresh `map[string]uint32` / `map[string]int` hash table. -/
def Heap.allocStrNatMap (h : Heap) (m : List (GoStr × Nat)) : Heap × Nat :=
  ({ h with strNatMaps := h.strNatMaps ++ [m] }, h.strNatMaps.length)

/-- Reads the entries of a string-to-number map (nil map reads as empty). -/
def Heap.readStrNatMap (h : Heap) (r : Option Nat) : List (GoStr × Nat) :=
  match r with
  | none => []
  | some r => h.strNatMaps.getD r []

/-- Association-list insert-or-update, the observable effect of a Go map
assignment (iteration order in Go is unspecified; this model iterates in
insertion order, and every use below is order-independent). -/
def assocInsert {α β : Type} [DecidableEq α] (m : List (α × β)) (k : α) (v : β) :
    List (α × β) :=
  if m.any (fun p => p.1 = k) then
    m.map (fun p => if p.1 = k then (k, v) else p)
  else
    m ++ [(k, v)]

/-- Go map assignment `m[k] = v` on a string-to-number map reference. -/
def Heap.insertStrNatMap (h : Heap) (r : Option Nat) (k : GoStr) (v : Nat) : Heap :=
  match r with
  | none => h
  | some r => { h with strNatMaps := h.strNatMaps.set r (assocInsert (h.strNatMaps.getD r []) k v) }

/-- Allocates a fresh `map[uint32]*FileEntry` hash table. -/
def Heap.allocFdMap (h : Heap) (m : List (Nat × FileEntry)) : Heap × Nat :=
  ({ h with fdMaps := h.fdMaps ++ [m] }, h.fdMaps.length)

/-- Reads the entries of an fd-to-entry map (nil map reads as empty). -/
def Heap.readFdMap (h : Heap) (r : Option Nat) : List (Nat × FileEntry) :=
  match r with
  | none => []
  | some r => h.fdMaps.getD r []

/-- Go map assignment `m[fd] = entry` on an fd-to-entry map reference. -/
def Heap.insertFdMap (h : Heap) (r : Option Nat) (k : Nat) (v : FileEntry) : Heap :=
  match r with
  | none => h
  | some r => { h with fdMaps := h.fdMaps.set r (assocInsert (h.fdMaps.getD r []) k v) }

/-- The elements of a `[]string` slice: the used prefix of its backing array. -/
def Heap.readSlice (h : Heap) (s : GoSlice) : List GoStr :=
  match s.ref with
  | none => []
  | some r => (h.readStrArray r).take s.len

/-- Go `append(s, x, y)` on a `[]string` slice: writes in place when the
backing array has capacity, otherwise reallocates. (On reallocation Go may
reserve extra capacity; this model allocates exactly the needed length,
which only affects whether a later append writes in place, and no theorem
below depends on that choice.) -/
def Heap.appendStr2 (h : Heap) (s : GoSlice) (x y : GoStr) : Heap × GoSlice :=
  match s.ref with
  | some r =>
    if s.len + 2 ≤ (h.readStrArray r).length then
      (((h.writeStrArray r s.len x).writeStrArray r (s.len + 1) y),
        { ref := some r, len := s.len + 2 })
    else
      let (h2, r2) := h.allocStrArray (((h.readStrArray r).take s.len) ++ [x, y])
      (h2, { ref := some r2, len := s.len + 2 })
  | none =>
    let (h2, r2) := h.allocStrArray [x, y]
    (h2, { ref := some r2, len := 2 })

/-- Embeds `moduleConfig` of `config.go`. The reader/writer fields hold
opaque stream identities (`none` for Go nil). -/
structure moduleConfig where
  name : GoStr
  startFunctions : List GoStr
  stdin : Option Nat
  stdout : Option Nat
  stderr : Option Nat
  args : List GoStr
  environ : GoSlice
  environKeys : Option Nat
  preopenFD : Nat
  preopens : Option Nat
  preopenPaths : Option Nat
deriving DecidableEq, Repr

/-- Embeds `NewModuleConfig` of `config.go`; allocates the three maps and
leaves the other fields at their Go zero values. `"_start"` is the byte
string 95,115,116,97,114,116. -/
def NewModuleConfig (h : Heap) : Heap × moduleConfig :=
  let (h1, ek) := h.allocStrNatMap []
  let (h2, po) := h1.allocFdMap []
  let (h3, pp) := h2.allocStrNatMap []
  (h3,
    { name := [], startFunctions := [[95, 115, 116, 97, 114, 116]]
      stdin := none, stdout := none, stderr := none, args := []
      environ := GoSlice.goNil, environKeys := some ek
      preopenFD := 3, preopens := some po, preopenPaths := some pp })

/-- Embeds `moduleConfig.WithArgs` of `config.go`. -/
def moduleConfig.WithArgs (c : moduleConfig) (args : List GoStr) : moduleConfig :=
  { c with args := args }

/-- Embeds `moduleConfig.WithEnv` of `config.go`. `ret := *c` is a shallow
copy: `ret` shares the receiver's `environ` backing array and `environKeys`
hash table, so both the in-place element write (existing key) and the map
insert (new key) are visible through the receiver. -/
def moduleConfig.WithEnv (c : moduleConfig) (h : Heap) (key value : GoStr) :
    Heap × moduleConfig :=
  let ret := c
  match (h.readStrNatMap ret.environKeys).lookup key with
  | some i =>
    -- environ is pair-indexed, so the value is 1 after the key.
    match ret.environ.ref with
    | some r => (h.writeStrArray r (i + 1) value, ret)
    | none => (h, ret)
  | none =>
    let h1 := h.insertStrNatMap ret.environKeys key ret.environ.len
    let (h2, s) := h1.appendStr2 ret.environ key value
    (h2, { ret with environ := s })

/-- Embeds `moduleConfig.setFS` of `config.go`. The receiver is a pointer in
Go, so the `preopenFD` bump is returned in the updated struct while the map
inserts act on the shared heap tables. -/
def moduleConfig.setFS (c : moduleConfig) (h : Heap) (path : GoStr) (fs : Option Nat) :
    Heap × moduleConfig :=
  let entry : FileEntry := { path := path, fs := fs }
  match (h.readStrNatMap c.preopenPaths).lookup path with
  | some fd => (h.insertFdMap c.preopens fd entry, c)
  | none =>
    let h1 := h.insertFdMap c.preopens c.preopenFD entry
    let h2 := h1.insertStrNatMap c.preopenPaths path c.preopenFD
    (h2, { c with preopenFD := c.preopenFD + 1 })

/-- Embeds `moduleConfig.WithFS` of `config.go`; `"/"` is byte 47. -/
def moduleConfig.WithFS (c : moduleConfig) (h : Heap) (fs : Option Nat) :
    Heap × moduleConfig :=
  let ret := c
  ret.setFS h [47] fs

/-- Embeds `moduleConfig.WithWorkDirFS` of `config.go`; `"."` is byte 46. -/
def moduleConfig.WithWorkDirFS (c : moduleConfig) (h : Heap) (fs : Option Nat) :
    Heap × moduleConfig :=
  let ret := c
  ret.setFS h [46] fs

/-- Embeds `moduleConfig.WithName` of `config.go`. -/
def moduleConfig.WithName (c : moduleConfig) (name : GoStr) : moduleConfig :=
  { c with name := name }

/-- Embeds `moduleConfig.WithStartFunctions` of `config.go`. -/
def moduleConfig.WithStartFunctions (c : moduleConfig) (fns : List GoStr) : moduleConfig :=
  { c with startFunctions := fns }

/-- Embeds `moduleConfig.WithStdin` of `config.go`. -/
def moduleConfig.WithStdin (c : moduleConfig) (stdin : Option Nat) : moduleConfig :=
  { c with stdin := stdin }

/-- Embeds `moduleConfig.WithStdout` of `config.go`. -/
def moduleConfig.WithStdout (c : moduleConfig) (stdout : Option Nat) : moduleConfig :=
  { c with stdout := stdout }

/-- Embeds `moduleConfig.WithStderr` of `config.go`. -/
def moduleConfig.WithStderr (c : moduleConfig) (stderr : Option Nat) : moduleConfig :=
  { c with stderr := stderr }

/-- The errors `moduleConfig.toSysContext` can return, embedded as an
enumeration of the Go error values. -/
inductive GoErr
  | environEmptyKey
  | environKeyContainsEq
  | nilFS (path : GoStr)
  | indexOutOfRange
deriving DecidableEq, Repr

/-- The result of `wasm.NewSysContext`: the per-module system context. -/
structure SysContext where
  maxFD : Nat
  args : List GoStr
  environ : List GoStr
  stdin : Option Nat
  stdout : Option Nat
  stderr : Option Nat
  openedFiles : List (Nat × FileEntry)
deriving DecidableEq, Repr

/-- Modelled from the spec: `wasm.NewSysContext` (package `internal/wasm`,
not under the provided sources) assembles the system context holding argv,
environ, the standard streams and the file-descriptor table; the spec lists
no further failure for the values `toSysContext` passes, so it succeeds. -/
def NewSysContext (maxFD : Nat) (args environ : List GoStr)
    (stdin stdout stderr : Option Nat) (openedFiles : List (Nat × FileEntry)) :
    Except GoErr SysContext :=
  .ok { maxFD, args, environ, stdin, stdout, stderr, openedFiles }

/-- The environment-building loop of `moduleConfig.toSysContext`: walks the
pair-indexed flat string list two at a time, rejects an empty key or a key
containing the byte 61 (the character `=`), and renders each accepted pair
as `key=value`. A flat list of odd length would make the Go loop index out
of range, embedded as a distinct error. -/
def buildEnviron : List GoStr → Except GoErr (List GoStr)
  | [] => .ok []
  | key :: value :: rest =>
    if key.length = 0 then .error .environEmptyKey
    else if key.any (fun b => b = 61) then .error .environKeyContainsEq
    else
      match buildEnviron rest with
      | .error e => .error e
      | .ok tail => .ok ((key ++ [61] ++ value) :: tail)
  | [_] => .error .indexOutOfRange

/-- Embeds `moduleConfig.toSysContext` of `config.go`: validates and renders
the environment, rejects nil preopen file systems, defaults the working
directory to the root file system when only `"/"` is preopened (a write into
the shared preopens map), and hands everything to `wasm.NewSysContext` with
`maxFD` of 2^32 - 1. -/
def moduleConfig.toSysContext (c : moduleConfig) (h : Heap) :
    Heap × Except GoErr SysContext :=
  match buildEnviron (h.readSlice c.environ) with
  | .error e => (h, .error e)
  | .ok environ =>
    let pre := h.readFdMap c.preopens
    match pre.find? (fun p => p.2.fs = none) with
    | some p => (h, .error (.nilFS p.2.path))
    | none =>
      let rootFD := pre.foldl (fun acc p => if p.2.path = [47] then p.1 else acc) 0
      let setWorkDirFS := pre.any (fun p => p.2.path = [46])
      if rootFD ≠ 0 ∧ ¬setWorkDirFS then
        let rootFS := ((pre.lookup rootFD).getD { path := [47], fs := none }).fs
        let h2 := h.insertFdMap c.preopens c.preopenFD { path := [46], fs := rootFS }
        (h2, NewSysContext (2 ^ 32 - 1) c.args environ c.stdin c.stdout c.stderr
          (h2.readFdMap c.preopens))
      else
        (h, NewSysContext (2 ^ 32 - 1) c.args environ c.stdin c.stdout c.stderr
          (h.readFdMap c.preopens))

/-- Flattens key/value pairs into the pair-indexed flat list stored in
`moduleConfig.environ`. -/
def flattenPairs : List (GoStr × GoStr) → List GoStr
  | [] => []
  | kv :: rest => kv.1 :: kv.2 :: flattenPairs rest

/-- A key is accepted by `toSysContext` when it is nonempty and has no `=`. -/
def validEnvKey (k : GoStr) : Prop := k ≠ [] ∧ ¬(61 ∈ k)

instance (k : GoStr) : Decidable (validEnvKey k) := by
  unfold validEnvKey; infer_instance

/-- The runtime configurations producible through the public constructors and
`With*` methods of `config.go`. -/
inductive runtimeConfig.Reachable : runtimeConfig → Prop
  | interp : runtimeConfig.Reachable NewRuntimeConfigInterpreter
  | compiler : runtimeConfig.Reachable NewRuntimeConfigCompiler
  | bulk {c} (e : Bool) : runtimeConfig.Reachable c →
      runtimeConfig.Reachable (c.WithFeatureBulkMemoryOperations e)
  | multiValue {c} (e : Bool) : runtimeConfig.Reachable c →
      runtimeConfig.Reachable (c.WithFeatureMultiValue e)
  | mutableGlobal {c} (e : Bool) : runtimeConfig.Reachable c →
      runtimeConfig.Reachable (c.WithFeatureMutableGlobal e)
  | nonTrapping {c} (e : Bool) : runtimeConfig.Reachable c →
      runtimeConfig.Reachable (c.WithFeatureNonTrappingFloatToIntConversion e)
  | refTypes {c} (e : Bool) : runtimeConfig.Reachable c →
      runtimeConfig.Reachable (c.WithFeatureReferenceTypes e)
  | signExt {c} (e : Bool) : runtimeConfig.Reachable c →
      runtimeConfig.Reachable (c.WithFeatureSignExtensionOps e)
  | simd {c} (e : Bool) : runtimeConfig.Reachable c →
      runtimeConfig.Reachable (c.WithFeatureSIMD e)
  | core1 {c} : runtimeConfig.Reachable c → runtimeConfig.Reachable c.WithWasmCore1
  | core2 {c} : runtimeConfig.Reachable c → runtimeConfig.Reachable c.WithWasmCore2

/-! ### Claims C8 and C10 -/

/-- The state after `NewModuleConfig()` on the empty heap. -/
def cfgH0 : Heap := (NewModuleConfig Heap.empty).1

/-- The configuration returned by `NewModuleConfig()`. -/
def cfgC0 : moduleConfig := (NewModuleConfig Heap.empty).2

/-- The heap after `cfgC0.WithEnv("a", "b")` (bytes 97, 98). -/
def cfgH1 : Heap := (cfgC0.WithEnv cfgH0 [97] [98]).1

/-- The configuration returned by `cfgC0.WithEnv("a", "b")`. -/
def cfgC1 : moduleConfig := (cfgC0.WithEnv cfgH0 [97] [98]).2

/-- The heap after calling `WithEnv("a", "c")` (bytes 97, 99) on `cfgC1`. -/
def cfgH2 : Heap := (cfgC1.WithEnv cfgH1 [97] [99]).1

/-- The configuration returned by `cfgC1.WithEnv("a", "c")`. -/
def cfgC2 : moduleConfig := (cfgC1.WithEnv cfgH1 [97] [99]).2

/-! ## WASI linear memory and host functions

The WASI implementation (`wasi` package) is not under the provided
sources — only its tests are — so the functions here are modelled from the
specification, with the tests fixing the concrete scenarios. -/

/-- A linear-memory instance: a byte content function plus a size in bytes;
only offsets below `size` are observable, and every host access is
bounds-checked against `size`. -/
structure Memory where
  size : Nat
  data : Nat → Nat

/-- The bytes of memory in the range `[off, off+len)`. -/
def Memory.readRange (m : Memory) (off len : Nat) : List Nat :=
  (List.range len).map (fun i => m.data (off + i))

/-- Writes the byte list at the given offset (bounds are checked by the
callers before writing). -/
def Memory.writeBytes (m : Memory) (off : Nat) (bs : List Nat) : Memory :=
  { m with data := fun i =>
      if off ≤ i ∧ i < off + bs.length then bs.getD (i - off) 0 else m.data i }

/-- Little-endian encoding of a u32 value into four bytes. -/
def encodeU32LE (n : Nat) : List Nat :=
  [n % 256, n / 256 % 256, n / 65536 % 256, n / 16777216 % 256]

/-- Little-endian decoding of the four bytes at the given offset. -/
def Memory.readU32LE (m : Memory) (off : Nat) : Nat :=
  m.data off + 256 * m.data (off + 1) + 65536 * m.data (off + 2) +
    16777216 * m.data (off + 3)

/-- The WASI error codes used by the spec, with their standard numbering. -/
inductive Errno
  | ESUCCESS
  | EBADF
  | EFAULT
  | EINVAL
  | Eio
  | ENAMETOOLONG
  | ENOENT
  | ENOSYS
deriving DecidableEq, Repr

/-- The numeric value of each errno per the standard WASI enumeration. -/
def Errno.code : Errno → Nat
  | .ESUCCESS => 0
  | .EBADF => 8
  | .EFAULT => 21
  | .EINVAL => 28
  | .Eio => 29
  | .ENAMETOOLONG => 37
  | .ENOENT => 44
  | .ENOSYS => 52

/-- The argv buffer content: each argument NUL-terminated, in order. -/
def nulTerminated : List GoStr → List Nat
  | [] => []
  | a :: rest => a ++ 0 :: nulTerminated rest

/-- The buffer offset of each argument when packed from `base`. -/
def argOffsets (base : Nat) : List GoStr → List Nat
  | [] => []
  | a :: rest => base :: argOffsets (base + a.length + 1) rest

/-- The little-endian u32 encodings of a list of values, concatenated. -/
def encodeU32List : List Nat → List Nat
  | [] => []
  | n :: rest => encodeU32LE n ++ encodeU32List rest

/-- Modelled from the spec: `snapshotPreview1.ArgsGet` (package `wasi`, not
under the provided sources). Writes the NUL-terminated argument strings at
`argvBuf` and the little-endian u32 buffer offset of each argument at
`argv + 4*i`; both regions are bounds-checked against the memory size first
and the call returns `EFAULT` without writing when either does not fit. -/
def ArgsGet (m : Memory) (args : List GoStr) (argv argvBuf : Nat) : Errno × Memory :=
  let buf := nulTerminated args
  if argv + 4 * args.length ≤ m.size ∧ argvBuf + buf.length ≤ m.size then
    let m1 := m.writeBytes argvBuf buf
    let m2 := m1.writeBytes argv (encodeU32List (argOffsets argvBuf args))
    (.ESUCCESS, m2)
  else
    (.EFAULT, m)

/-- An open file as the WASI layer sees it: its contents and read offset. -/
structure FileState where
  contents : List Nat
  offset : Nat
deriving DecidableEq, Repr

/-- The per-call WASI context: the module memory and the fd table. -/
structure WasiCtx where
  mem : Memory
  files : List (Nat × FileState)

/-- Modelled from the spec: the scatter loop of `fd_read`. For each of the
`count` iovec records at `iovs` (u32 offset then u32 length, little
endian), it bounds-checks the record and the destination range (`EFAULT`
on failure), copies up to `length` bytes from the file read offset into
memory at `offset`, advances the file offset, and accumulates the number
of bytes read. -/
def fdReadLoop (m : Memory) (f : FileState) (iovs count : Nat) :
    Except Errno (Memory × FileState × Nat) :=
  match count with
  | 0 => .ok (m, f, 0)
  | k + 1 =>
    if iovs + 8 ≤ m.size then
      let off := m.readU32LE iovs
      let len := m.readU32LE (iovs + 4)
      if off + len ≤ m.size then
        let chunk := (f.contents.drop f.offset).take len
        let m1 := m.writeBytes off chunk
        let f1 := { f with offset := f.offset + chunk.length }
        match fdReadLoop m1 f1 (iovs + 8) k with
        | .error e => .error e
        | .ok (m2, f2, n) => .ok (m2, f2, chunk.length + n)
      else .error .EFAULT
    else .error .EFAULT

/-- Modelled from the spec: `snapshotPreview1.FdRead` (package `wasi`, not
under the provided sources). Looks the fd up in the table (`EBADF` when
absent), runs the scatter loop, and stores the little-endian u32 total at
`resultSize` (bounds-checked, `EFAULT` on failure). -/
def FdRead (ctx : WasiCtx) (fd iovs iovsCount resultSize : Nat) : Errno × WasiCtx :=
  match ctx.files.lookup fd with
  | none => (.EBADF, ctx)
  | some f =>
    match fdReadLoop ctx.mem f iovs iovsCount with
    | .error e => (e, ctx)
    | .ok (m1, f1, n) =>
      if resultSize + 4 ≤ m1.size then
        (.ESUCCESS,
          { mem := m1.writeBytes resultSize (encodeU32LE n)
            files := assocInsert ctx.files fd f1 })
      else
        (.EFAULT, ctx)

/-! ### Claims C2 and C3 -/

/-- The memory state of the `fd_read` scatter test before the call: one
64 KiB page, the iovec records `(18,4)` and `(23,2)` written at offset 1,
offsets 18 to 30 masked with byte 63 (the character `?`), zero beyond. -/
def c2InitialBytes : List Nat :=
  [63, 18, 0, 0, 0, 4, 0, 0, 0, 23, 0, 0, 0, 2, 0, 0, 0, 63]

/-- The initial memory for the `fd_read` scenario. -/
def c2Memory : Memory :=
  { size := 65536
    data := fun i => if i < 18 then c2InitialBytes.getD i 0 else if i < 31 then 63 else 0 }

/-- The initial WASI context for the `fd_read` scenario: the file
`"wazero"` (bytes 119,97,122,101,114,111) open at fd 3 with read offset 0. -/
def c2Ctx : WasiCtx :=
  { mem := c2Memory, files := [(3, { contents := [119, 97, 122, 101, 114, 111], offset := 0 })] }

/-- The initial memory for the `args_get` scenario: one 64 KiB page with
the first 16 bytes masked with byte 63 (the character `?`). -/
def c3Memory : Memory :=
  { size := 65536, data := fun i => if i < 16 then 63 else 0 }

/-! ## Store, instantiation and close

`internal/wasm/store.go` and `sys.ExitError` are not under the provided
sources — only their tests are — so the store operations and the exit
semantics are modelled from the specification. The `closed` field uses the
encoding the tests observe: 0 while open, `1 + exitCode * 2^32` once
closed. -/

/-- Modelled from the spec: a module instance as the store and the call
path see it — its registered name, the atomic closed word, the names of
the modules it imports, and its dependent count. -/
structure ModuleInst where
  name : GoStr
  closed : Nat
  imports : List GoStr
  deps : Nat
deriving DecidableEq, Repr

/-- Modelled from the spec: the store owns instantiated modules by unique
name. -/
structure Store where
  modules : List (GoStr × ModuleInst)
deriving DecidableEq, Repr

/-- Modelled from the spec: what instantiation needs from a validated
module: its import names and whether engine compilation and the start
function succeed. -/
structure ModuleDesc where
  imports : List GoStr
  compileOk : Bool
  startOk : Bool
deriving DecidableEq, Repr

/-- Modelled from the spec: the instantiation errors of the store. -/
inductive InstErr
  | alreadyInstantiated
  | moduleNotInstantiated (n : GoStr)
  | compilationFailed
  | startFailed
deriving DecidableEq, Repr

/-- Increments the dependent count of the module registered under `n`. -/
def incDeps (mods : List (GoStr × ModuleInst)) (n : GoStr) : List (GoStr × ModuleInst) :=
  mods.map (fun p => if p.1 = n then (p.1, { p.2 with deps := p.2.deps + 1 }) else p)

/-- Decrements the dependent count of the module registered under `n`. -/
def decDeps (mods : List (GoStr × ModuleInst)) (n : GoStr) : List (GoStr × ModuleInst) :=
  mods.map (fun p => if p.1 = n then (p.1, { p.2 with deps := p.2.deps - 1 }) else p)

/-- Modelled from the spec: import resolution looks each imported module up
by name, incrementing its dependent count; a missing module is an error and
— instantiation being atomic — leaves the store as it was. -/
def resolveImports (mods : List (GoStr × ModuleInst)) :
    List GoStr → Except InstErr (List (GoStr × ModuleInst))
  | [] => .ok mods
  | n :: rest =>
    if (mods.lookup n).isSome then resolveImports (incDeps mods n) rest
    else .error (.moduleNotInstantiated n)

/-- Modelled from the spec: releasing a module's imports decrements each
imported module's dependent count (processed so that it exactly undoes
`resolveImports`; the net effect is order-independent). -/
def releaseImports (mods : List (GoStr × ModuleInst)) :
    List GoStr → List (GoStr × ModuleInst)
  | [] => mods
  | n :: rest => decDeps (releaseImports mods rest) n

/-- Modelled from the spec: removing a module from the store deletes its
name entry and releases its imports. -/
def deleteModule (s : Store) (m : ModuleInst) : Store :=
  { modules := releaseImports (s.modules.filter (fun p => ¬p.1 = m.name)) m.imports }

/-- Modelled from the spec: `Store.Instantiate` — reject a duplicate name,
resolve imports, compile on the engine, register the instance, then run the
start function; a compilation failure releases the imports, and a start
failure deletes the just-registered module, so that failure past import
resolution leaves no trace. -/
def Instantiate (s : Store) (md : ModuleDesc) (name : GoStr) :
    Store × Except InstErr ModuleInst :=
  if (s.modules.lookup name).isSome then (s, .error .alreadyInstantiated)
  else
    match resolveImports s.modules md.imports with
    | .error e => (s, .error e)
    | .ok mods1 =>
      if ¬md.compileOk then
        ({ modules := releaseImports mods1 md.imports }, .error .compilationFailed)
      else
        let m : ModuleInst := { name := name, closed := 0, imports := md.imports, deps := 0 }
        let mods2 := mods1 ++ [(name, m)]
        if ¬md.startOk then
          (deleteModule { modules := mods2 } m, .error .startFailed)
        else
          ({ modules := mods2 }, .ok m)

/-- Modelled from the spec: `CallContext.CloseWithExitCode` — a
compare-and-set on the closed word: if the module is already closed the
call is a successful no-op; otherwise the closed word becomes
`1 + exitCode * 2^32` and the module is removed from the store. The spec
close never reports an error. -/
def CloseWithExitCode (s : Store) (m : ModuleInst) (code : Nat) : Store × ModuleInst :=
  if m.closed ≠ 0 then (s, m)
  else (deleteModule s m, { m with closed := 1 + code % 4294967296 * 4294967296 })

/-- The exit code recorded in a closed word. -/
def exitCodeOf (closed : Nat) : Nat := closed / 4294967296

/-- The typed exit error surfaced at the API boundary. -/
structure ExitError where
  moduleName : GoStr
  exitCode : Nat
deriving DecidableEq, Repr

/-- Modelled from the spec: a function body for the exit semantics — an
instruction either produces an observable effect or invokes
`proc_exit(code)`. -/
inductive Instr
  | observe (tag : Nat)
  | procExit (code : Nat)
deriving DecidableEq, Repr

/-- Modelled from the spec: executing a body instruction by instruction;
the result is the trace of observed effects together with either normal
completion or the exit error that terminated the call. `proc_exit` does
not return: nothing after it runs. -/
def runBody (name : GoStr) : List Instr → List Nat × Except ExitError Unit
  | [] => ([], .ok ())
  | .observe t :: rest =>
    let r := runBody name rest
    (t :: r.1, r.2)
  | .procExit code :: _ => ([], .error { moduleName := name, exitCode := code })

/-- Modelled from the spec: calling an exported function of a module — a
closed module fails immediately with the exit error carrying the module
name and recorded exit code; otherwise the body runs. -/
def callExported (m : ModuleInst) (body : List Instr) : List Nat × Except ExitError Unit :=
  if m.closed ≠ 0 then
    ([], .error { moduleName := m.name, exitCode := exitCodeOf m.closed })
  else runBody m.name body

/-! ### Claims C4, C5, C6 -/

/-- The instance record `Instantiate` registers for a fresh module. -/
def freshInst (name : GoStr) (md : ModuleDesc) : ModuleInst :=
  { name := name, closed := 0, imports := md.imports, deps := 0 }

/-! ## IR lowering (`internal/wazeroir/compiler.go`)

The lowering pass is embedded over the byte body of a function. The
enumerations, `Operation` record types, LEB128 decoders and
`wasm.DecodeBlockType` are declared in files that are not under the
provided sources; their shapes are fixed by their uses in `compiler.go`
and, where noted, modelled from the spec. The per-opcode stack signature
function `wasmOpcodeSignature` is also not under the provided sources, so
the embedding is parametric in it (`SigFn`). -/

/-- The Wasm value types. -/
inductive WValueType
  | i32
  | i64
  | f32
  | f64
  | v128
  | funcref
  | externref
deriving DecidableEq, Repr

/-- A global type: value type and mutability. -/
structure WGlobalType where
  valType : WValueType
  isMutable : Bool
deriving DecidableEq, Repr

/-- The number of 64-bit slots a list of value types occupies (v128 takes
two). -/
def numInUint64 : List WValueType → Nat
  | [] => 0
  | t :: rest => (if t = .v128 then 2 else 1) + numInUint64 rest

/-- A function type; the Go struct caches `ParamNumInUint64` and
`ResultNumInUint64`, embedded here as functions. -/
structure WFunctionType where
  params : List WValueType
  results : List WValueType
deriving DecidableEq, Repr

/-- The slot count of the parameters. -/
def WFunctionType.paramNumInUint64 (ft : WFunctionType) : Nat := numInUint64 ft.params

/-- The slot count of the results. -/
def WFunctionType.resultNumInUint64 (ft : WFunctionType) : Nat := numInUint64 ft.results

/-- The wazeroir compile-time stack types (`UnsignedTypeI32` and friends,
plus the polymorphic `UnsignedTypeUnknown`). -/
inductive UnsignedType
  | I32
  | I64
  | F32
  | F64
  | Unknown
deriving DecidableEq, Repr

/-- The wazeroir 32/64-bit integer tag (`UnsignedInt32` / `UnsignedInt64`). -/
inductive UnsignedInt
  | U32
  | U64
deriving DecidableEq, Repr

/-- The wazeroir signed integer tag (`SignedInt32`, `SignedUint32`, ...). -/
inductive SignedInt
  | Int32
  | Uint32
  | Int64
  | Uint64
deriving DecidableEq, Repr

/-- The wazeroir signed operand tag (`SignedTypeInt32`, ...,
`SignedTypeFloat64`). -/
inductive SignedType
  | Int32
  | Uint32
  | Int64
  | Uint64
  | Float32
  | Float64
deriving DecidableEq, Repr

/-- The wazeroir float tag (`Float32` / `Float64`). -/
inductive FloatTag
  | F32
  | F64
deriving DecidableEq, Repr

/-- Modelled from the spec: `wasmValueTypeToUnsignedType` (wazeroir package,
not under the provided sources) — the compile-time stack slots of a value
type; references are opaque 64-bit pointers and a v128 occupies two slots
(consistent with `emitDefaultValue` in `compiler.go`). -/
def wasmValueTypeToUnsignedType : WValueType → List UnsignedType
  | .i32 => [.I32]
  | .i64 => [.I64]
  | .funcref => [.I64]
  | .externref => [.I64]
  | .f32 => [.F32]
  | .f64 => [.F64]
  | .v128 => [.I64, .I64]

/-- The stack slots of a list of value types. -/
def unsignedTypesOf (ts : List WValueType) : List UnsignedType :=
  match ts with
  | [] => []
  | t :: rest => wasmValueTypeToUnsignedType t ++ unsignedTypesOf rest

/-- The wazeroir label kinds. -/
inductive LabelKind
  | Header
  | Else
  | Continuation
deriving DecidableEq, Repr

/-- A wazeroir label (frame id plus kind); Go keys `LabelCallers` by
`Label.String()`, which is injective on labels, so labels key directly
here. -/
structure IRLabel where
  frameID : Nat
  kind : LabelKind
deriving DecidableEq, Repr

/-- A branch target; `none` stands for the nil label that `asBranchTarget`
produces for the function frame (translated as return). -/
structure BranchTarget where
  label : Option IRLabel
deriving DecidableEq, Repr

/-- An inclusive range of stack slots to drop (Go `int` fields, so `Int`). -/
structure InclusiveRange where
  start : Int
  stop : Int
deriving DecidableEq, Repr

/-- A branch target with the stack range to drop on the way. -/
structure BranchTargetDrop where
  target : BranchTarget
  toDrop : Option InclusiveRange
deriving DecidableEq, Repr

/-- A memory-access immediate: alignment hint and static offset. -/
structure MemoryImmediate where
  alignment : Nat
  offset : Nat
deriving DecidableEq, Repr

/-- The branch target of a label. -/
def IRLabel.asBranchTarget (l : IRLabel) : BranchTarget := { label := some l }

/-- The dropless branch target of a label. -/
def IRLabel.asBranchTargetDrop (l : IRLabel) : BranchTargetDrop :=
  { target := l.asBranchTarget, toDrop := none }

/-- The wazeroir operations emitted by `compiler.go`, one constructor per
`Operation*` struct, with float constants carried as their raw bits. -/
inductive Operation
  | Unreachable
  | Label (label : IRLabel)
  | Br (target : BranchTarget)
  | BrIf (thenTarget elseTarget : BranchTargetDrop)
  | BrTable (targets : List BranchTargetDrop) (defaultTarget : BranchTargetDrop)
  | Call (functionIndex : Nat)
  | CallIndirect (typeIndex tableIndex : Nat)
  | Drop (depth : Option InclusiveRange)
  | Select
  | Pick (depth : Int)
  | Swap (depth : Int)
  | GlobalGet (index : Nat)
  | GlobalSet (index : Nat)
  | Load (t : UnsignedType) (arg : MemoryImmediate)
  | Load8 (t : SignedInt) (arg : MemoryImmediate)
  | Load16 (t : SignedInt) (arg : MemoryImmediate)
  | Load32 (signed : Bool) (arg : MemoryImmediate)
  | Store (t : UnsignedType) (arg : MemoryImmediate)
  | Store8 (t : UnsignedInt) (arg : MemoryImmediate)
  | Store16 (t : UnsignedInt) (arg : MemoryImmediate)
  | Store32 (arg : MemoryImmediate)
  | MemorySize
  | MemoryGrow
  | ConstI32 (value : Nat)
  | ConstI64 (value : Nat)
  | ConstF32 (bits : Nat)
  | ConstF64 (bits : Nat)
  | Eqz (t : UnsignedInt)
  | Eq (t : UnsignedType)
  | Ne (t : UnsignedType)
  | Lt (t : SignedType)
  | Gt (t : SignedType)
  | Le (t : SignedType)
  | Ge (t : SignedType)
  | Clz (t : UnsignedInt)
  | Ctz (t : UnsignedInt)
  | Popcnt (t : UnsignedInt)
  | Add (t : UnsignedType)
  | Sub (t : UnsignedType)
  | Mul (t : UnsignedType)
  | Div (t : SignedType)
  | Rem (t : SignedInt)
  | And (t : UnsignedInt)
  | Or (t : UnsignedInt)
  | Xor (t : UnsignedInt)
  | Shl (t : UnsignedInt)
  | Shr (t : SignedInt)
  | Rotl (t : UnsignedInt)
  | Rotr (t : UnsignedInt)
  | Abs (t : FloatTag)
  | Neg (t : FloatTag)
  | Ceil (t : FloatTag)
  | Floor (t : FloatTag)
  | Trunc (t : FloatTag)
  | Nearest (t : FloatTag)
  | Sqrt (t : FloatTag)
  | Min (t : FloatTag)
  | Max (t : FloatTag)
  | Copysign (t : FloatTag)
  | I32WrapFromI64
  | ITruncFromF (inputType : FloatTag) (outputType : SignedInt) (nonTrapping : Bool)
  | FConvertFromI (inputType : SignedInt) (outputType : FloatTag)
  | F32DemoteFromF64
  | F64PromoteFromF32
  | I32ReinterpretFromF32
  | I64ReinterpretFromF64
  | F32ReinterpretFromI32
  | F64ReinterpretFromI64
  | Extend (signed : Bool)
  | SignExtend32From8
  | SignExtend32From16
  | SignExtend64From8
  | SignExtend64From16
  | SignExtend64From32
  | RefFunc (functionIndex : Nat)
  | TableGet (tableIndex : Nat)
  | TableSet (tableIndex : Nat)
  | MemoryInit (dataIndex : Nat)
  | DataDrop (dataIndex : Nat)
  | MemoryCopy
  | MemoryFill
  | TableInit (elemIndex tableIndex : Nat)
  | ElemDrop (elemIndex : Nat)
  | TableCopy (srcTableIndex dstTableIndex : Nat)
  | TableGrow (tableIndex : Nat)
  | TableSize (tableIndex : Nat)
  | TableFill (tableIndex : Nat)
  | ConstV128 (lo hi : Nat)
  | I32x4Add
  | I64x2Add

/-- The control-frame kinds of `compiler.go`. -/
inductive controlFrameKind
  | blockWithContinuationLabel
  | blockWithoutContinuationLabel
  | function
  | loop
  | ifWithElse
  | ifWithoutElse
deriving DecidableEq, Repr

/-- A control frame (`controlFrame` in `compiler.go`); the original stack
length is a Go `int`. -/
structure controlFrame where
  frameID : Nat
  originalStackLenWithoutParam : Int
  blockType : WFunctionType
  kind : controlFrameKind
deriving DecidableEq, Repr

/-- Embeds `controlFrame.ensureContinuation`. -/
def controlFrame.ensureContinuation (c : controlFrame) : controlFrame :=
  if c.kind = .blockWithoutContinuationLabel then
    { c with kind := .blockWithContinuationLabel }
  else c

/-- Embeds `controlFrame.asBranchTarget` (the nil label of the function
frame is `label := none`). -/
def controlFrame.asBranchTarget (c : controlFrame) : BranchTarget :=
  match c.kind with
  | .blockWithContinuationLabel => { label := some { frameID := c.frameID, kind := .Continuation } }
  | .blockWithoutContinuationLabel => { label := some { frameID := c.frameID, kind := .Continuation } }
  | .loop => { label := some { frameID := c.frameID, kind := .Header } }
  | .function => { label := none }
  | .ifWithElse => { label := some { frameID := c.frameID, kind := .Continuation } }
  | .ifWithoutElse => { label := some { frameID := c.frameID, kind := .Continuation } }

/-! ### LEB128 and byte readers (modelled) -/

/-- Modelled from the spec: the unsigned LEB128 accumulator common to the
`leb128` decoders (the package is not under the provided sources); returns
the value and byte count, `none` on truncated or overlong input. -/
def decodeLEBUnsignedCore : List Nat → Nat → Option (Nat × Nat)
  | _, 0 => none
  | [], _ => none
  | b :: rest, fuel + 1 =>
    if b < 128 then some (b, 1)
    else
      match decodeLEBUnsignedCore rest fuel with
      | none => none
      | some (v, n) => some (b % 128 + 128 * v, n + 1)

/-- Modelled from the spec: `leb128.DecodeUint32`. -/
def decodeUint32 (bs : List Nat) : Option (Nat × Nat) :=
  match decodeLEBUnsignedCore bs 5 with
  | none => none
  | some (v, n) => if v < 4294967296 then some (v, n) else none

/-- Modelled from the spec: the signed LEB128 accumulator. -/
def decodeSLEBCore : List Nat → Nat → Option (Int × Nat)
  | _, 0 => none
  | [], _ => none
  | b :: rest, fuel + 1 =>
    if b < 128 then
      some (if b < 64 then ((b : Int), 1) else ((b : Int) - 128, 1))
    else
      match decodeSLEBCore rest fuel with
      | none => none
      | some (v, n) => some (((b % 128 : Nat) : Int) + 128 * v, n + 1)

/-- Modelled from the spec: `leb128.DecodeInt32`. -/
def decodeInt32 (bs : List Nat) : Option (Int × Nat) :=
  match decodeSLEBCore bs 5 with
  | none => none
  | some (v, n) => if -2147483648 ≤ v ∧ v < 2147483648 then some (v, n) else none

/-- Modelled from the spec: `leb128.DecodeInt64`. -/
def decodeInt64 (bs : List Nat) : Option (Int × Nat) :=
  match decodeSLEBCore bs 10 with
  | none => none
  | some (v, n) =>
    if -9223372036854775808 ≤ v ∧ v < 9223372036854775808 then some (v, n) else none

/-- The two's-complement uint32 of a signed value (`uint32(val)` in Go). -/
def toUint32 (v : Int) : Nat := (v % 4294967296).toNat

/-- The two's-complement uint64 of a signed value (`uint64(val)` in Go). -/
def toUint64 (v : Int) : Nat := (v % 18446744073709551616).toNat

/-- Reads exactly `n` bytes at `off`; `none` when the body is too short
(where Go slicing would panic). -/
def readBytesAt (bs : List Nat) (off n : Nat) : Option (List Nat) :=
  let chunk := (bs.drop off).take n
  if chunk.length = n then some chunk else none

/-- Little-endian value of a byte list. -/
def leToNat : List Nat → Nat
  | [] => 0
  | b :: rest => b + 256 * leToNat rest

/-- Modelled from the spec: `wasm.DecodeBlockType` (binary decoder package,
not under the provided sources) — 0x40 is the empty type, a value-type byte
a single result, and otherwise a signed LEB128 index into the type section,
allowed only under the multi-value feature; returns the type and the byte
count consumed. -/
def DecodeBlockType (types : List WFunctionType) (bs : List Nat) (features : Features) :
    Option (WFunctionType × Nat) :=
  match bs with
  | [] => none
  | b :: _ =>
    if b = 64 then some ({ params := [], results := [] }, 1)
    else
      match b with
      | 0x7F => some ({ params := [], results := [.i32] }, 1)
      | 0x7E => some ({ params := [], results := [.i64] }, 1)
      | 0x7D => some ({ params := [], results := [.f32] }, 1)
      | 0x7C => some ({ params := [], results := [.f64] }, 1)
      | 0x7B => some ({ params := [], results := [.v128] }, 1)
      | 0x70 => some ({ params := [], results := [.funcref] }, 1)
      | 0x6F => some ({ params := [], results := [.externref] }, 1)
      | _ =>
        if features.multiValue then
          match decodeSLEBCore bs 5 with
          | none => none
          | some (v, n) =>
            if v < 0 then none
            else
              match types.get? v.toNat with
              | none => none
              | some ft => some (ft, n)
        else none

/-! ### Opcode classification

`handleInstruction` in `compiler.go` is one switch over the opcode byte.
Embedded here, the byte is first classified: the control-flow and
immediate-bearing opcodes get their own constructor, while the opcodes
whose case body is a single `emit` of one operation are grouped as
`simple` and the 23 memory-access opcodes as `mem`, with the per-opcode
content carried by the tables `simpleEmit` and `memEmit` below — one table
line per Go case. -/

/-- The opcodes whose Go case is a single `c.emit` of one operation. -/
inductive SimpleOp
  | dropOp | select
  | i32Eqz | i32Eq | i32Ne | i32LtS | i32LtU | i32GtS | i32GtU | i32LeS | i32LeU | i32GeS | i32GeU
  | i64Eqz | i64Eq | i64Ne | i64LtS | i64LtU | i64GtS | i64GtU | i64LeS | i64LeU | i64GeS | i64GeU
  | f32Eq | f32Ne | f32Lt | f32Gt | f32Le | f32Ge
  | f64Eq | f64Ne | f64Lt | f64Gt | f64Le | f64Ge
  | i32Clz | i32Ctz | i32Popcnt
  | i32Add | i32Sub | i32Mul | i32DivS | i32DivU | i32RemS | i32RemU
  | i32And | i32Or | i32Xor | i32Shl | i32ShrS | i32ShrU | i32Rotl | i32Rotr
  | i64Clz | i64Ctz | i64Popcnt
  | i64Add | i64Sub | i64Mul | i64DivS | i64DivU | i64RemS | i64RemU
  | i64And | i64Or | i64Xor | i64Shl | i64ShrS | i64ShrU | i64Rotl | i64Rotr
  | f32Abs | f32Neg | f32Ceil | f32Floor | f32Trunc | f32Nearest | f32Sqrt
  | f32Add | f32Sub | f32Mul | f32Div | f32Min | f32Max | f32Copysign
  | f64Abs | f64Neg | f64Ceil | f64Floor | f64Trunc | f64Nearest | f64Sqrt
  | f64Add | f64Sub | f64Mul | f64Div | f64Min | f64Max | f64Copysign
  | i32WrapI64
  | i32TruncF32S | i32TruncF32U | i32TruncF64S | i32TruncF64U
  | i64ExtendI32S | i64ExtendI32U
  | i64TruncF32S | i64TruncF32U | i64TruncF64S | i64TruncF64U
  | f32ConvertI32S | f32ConvertI32U | f32ConvertI64S | f32ConvertI64U | f32DemoteF64
  | f64ConvertI32S | f64ConvertI32U | f64ConvertI64S | f64ConvertI64U | f64PromoteF32
  | i32ReinterpretF32 | i64ReinterpretF64 | f32ReinterpretI32 | f64ReinterpretI64
  | i32Extend8S | i32Extend16S | i64Extend8S | i64Extend16S | i64Extend32S
  | refIsNull
deriving DecidableEq, Repr

/-- The operation each simple opcode emits — one line per `compiler.go`
case. Note `i32Xor` is emitted with `UnsignedInt64` in the source
(line 1213), unlike `i32And` and `i32Or`. -/
def simpleEmit : SimpleOp → Operation
  | .dropOp => .Drop (some { start := 0, stop := 0 })
  | .select => .Select
  | .i32Eqz => .Eqz .U32
  | .i32Eq => .Eq .I32
  | .i32Ne => .Ne .I32
  | .i32LtS => .Lt .Int32
  | .i32LtU => .Lt .Uint32
  | .i32GtS => .Gt .Int32
  | .i32GtU => .Gt .Uint32
  | .i32LeS => .Le .Int32
  | .i32LeU => .Le .Uint32
  | .i32GeS => .Ge .Int32
  | .i32GeU => .Ge .Uint32
  | .i64Eqz => .Eqz .U64
  | .i64Eq => .Eq .I64
  | .i64Ne => .Ne .I64
  | .i64LtS => .Lt .Int64
  | .i64LtU => .Lt .Uint64
  | .i64GtS => .Gt .Int64
  | .i64GtU => .Gt .Uint64
  | .i64LeS => .Le .Int64
  | .i64LeU => .Le .Uint64
  | .i64GeS => .Ge .Int64
  | .i64GeU => .Ge .Uint64
  | .f32Eq => .Eq .F32
  | .f32Ne => .Ne .F32
  | .f32Lt => .Lt .Float32
  | .f32Gt => .Gt .Float32
  | .f32Le => .Le .Float32
  | .f32Ge => .Ge .Float32
  | .f64Eq => .Eq .F64
  | .f64Ne => .Ne .F64
  | .f64Lt => .Lt .Float64
  | .f64Gt => .Gt .Float64
  | .f64Le => .Le .Float64
  | .f64Ge => .Ge .Float64
  | .i32Clz => .Clz .U32
  | .i32Ctz => .Ctz .U32
  | .i32Popcnt => .Popcnt .U32
  | .i32Add => .Add .I32
  | .i32Sub => .Sub .I32
  | .i32Mul => .Mul .I32
  | .i32DivS => .Div .Int32
  | .i32DivU => .Div .Uint32
  | .i32RemS => .Rem .Int32
  | .i32RemU => .Rem .Uint32
  | .i32And => .And .U32
  | .i32Or => .Or .U32
  | .i32Xor => .Xor .U64
  | .i32Shl => .Shl .U32
  | .i32ShrS => .Shr .Int32
  | .i32ShrU => .Shr .Uint32
  | .i32Rotl => .Rotl .U32
  | .i32Rotr => .Rotr .U32
  | .i64Clz => .Clz .U64
  | .i64Ctz => .Ctz .U64
  | .i64Popcnt => .Popcnt .U64
  | .i64Add => .Add .I64
  | .i64Sub => .Sub .I64
  | .i64Mul => .Mul .I64
  | .i64DivS => .Div .Int64
  | .i64DivU => .Div .Uint64
  | .i64RemS => .Rem .Int64
  | .i64RemU => .Rem .Uint64
  | .i64And => .And .U64
  | .i64Or => .Or .U64
  | .i64Xor => .Xor .U64
  | .i64Shl => .Shl .U64
  | .i64ShrS => .Shr .Int64
  | .i64ShrU => .Shr .Uint64
  | .i64Rotl => .Rotl .U64
  | .i64Rotr => .Rotr .U64
  | .f32Abs => .Abs .F32
  | .f32Neg => .Neg .F32
  | .f32Ceil => .Ceil .F32
  | .f32Floor => .Floor .F32
  | .f32Trunc => .Trunc .F32
  | .f32Nearest => .Nearest .F32
  | .f32Sqrt => .Sqrt .F32
  | .f32Add => .Add .F32
  | .f32Sub => .Sub .F32
  | .f32Mul => .Mul .F32
  | .f32Div => .Div .Float32
  | .f32Min => .Min .F32
  | .f32Max => .Max .F32
  | .f32Copysign => .Copysign .F32
  | .f64Abs => .Abs .F64
  | .f64Neg => .Neg .F64
  | .f64Ceil => .Ceil .F64
  | .f64Floor => .Floor .F64
  | .f64Trunc => .Trunc .F64
  | .f64Nearest => .Nearest .F64
  | .f64Sqrt => .Sqrt .F64
  | .f64Add => .Add .F64
  | .f64Sub => .Sub .F64
  | .f64Mul => .Mul .F64
  | .f64Div => .Div .Float64
  | .f64Min => .Min .F64
  | .f64Max => .Max .F64
  | .f64Copysign => .Copysign .F64
  | .i32WrapI64 => .I32WrapFromI64
  | .i32TruncF32S => .ITruncFromF .F32 .Int32 false
  | .i32TruncF32U => .ITruncFromF .F32 .Uint32 false
  | .i32TruncF64S => .ITruncFromF .F64 .Int32 false
  | .i32TruncF64U => .ITruncFromF .F64 .Uint32 false
  | .i64ExtendI32S => .Extend true
  | .i64ExtendI32U => .Extend false
  | .i64TruncF32S => .ITruncFromF .F32 .Int64 false
  | .i64TruncF32U => .ITruncFromF .F32 .Uint64 false
  | .i64TruncF64S => .ITruncFromF .F64 .Int64 false
  | .i64TruncF64U => .ITruncFromF .F64 .Uint64 false
  | .f32ConvertI32S => .FConvertFromI .Int32 .F32
  | .f32ConvertI32U => .FConvertFromI .Uint32 .F32
  | .f32ConvertI64S => .FConvertFromI .Int64 .F32
  | .f32ConvertI64U => .FConvertFromI .Uint64 .F32
  | .f32DemoteF64 => .F32DemoteFromF64
  | .f64ConvertI32S => .FConvertFromI .Int32 .F64
  | .f64ConvertI32U => .FConvertFromI .Uint32 .F64
  | .f64ConvertI64S => .FConvertFromI .Int64 .F64
  | .f64ConvertI64U => .FConvertFromI .Uint64 .F64
  | .f64PromoteF32 => .F64PromoteFromF32
  | .i32ReinterpretF32 => .I32ReinterpretFromF32
  | .i64ReinterpretF64 => .I64ReinterpretFromF64
  | .f32ReinterpretI32 => .F32ReinterpretFromI32
  | .f64ReinterpretI64 => .F64ReinterpretFromI64
  | .i32Extend8S => .SignExtend32From8
  | .i32Extend16S => .SignExtend32From16
  | .i64Extend8S => .SignExtend64From8
  | .i64Extend16S => .SignExtend64From16
  | .i64Extend32S => .SignExtend64From32
  | .refIsNull => .Eqz .U64

/-- The 23 memory-access opcodes, whose Go case is `readMemoryImmediate`
then one `c.emit`. -/
inductive MemOp
  | i32Load | i64Load | f32Load | f64Load
  | i32Load8S | i32Load8U | i32Load16S | i32Load16U
  | i64Load8S | i64Load8U | i64Load16S | i64Load16U | i64Load32S | i64Load32U
  | i32Store | i64Store | f32Store | f64Store
  | i32Store8 | i32Store16 | i64Store8 | i64Store16 | i64Store32
deriving DecidableEq, Repr

/-- The operation each memory opcode emits, given its immediate — one line
per `compiler.go` case. -/
def memEmit : MemOp → MemoryImmediate → Operation
  | .i32Load, imm => .Load .I32 imm
  | .i64Load, imm => .Load .I64 imm
  | .f32Load, imm => .Load .F32 imm
  | .f64Load, imm => .Load .F64 imm
  | .i32Load8S, imm => .Load8 .Int32 imm
  | .i32Load8U, imm => .Load8 .Uint32 imm
  | .i32Load16S, imm => .Load16 .Int32 imm
  | .i32Load16U, imm => .Load16 .Uint32 imm
  | .i64Load8S, imm => .Load8 .Int64 imm
  | .i64Load8U, imm => .Load8 .Uint64 imm
  | .i64Load16S, imm => .Load16 .Int64 imm
  | .i64Load16U, imm => .Load16 .Uint64 imm
  | .i64Load32S, imm => .Load32 true imm
  | .i64Load32U, imm => .Load32 false imm
  | .i32Store, imm => .Store .I32 imm
  | .i64Store, imm => .Store .I64 imm
  | .f32Store, imm => .Store .F32 imm
  | .f64Store, imm => .Store .F64 imm
  | .i32Store8, imm => .Store8 .U32 imm
  | .i32Store16, imm => .Store16 .U32 imm
  | .i64Store8, imm => .Store8 .U64 imm
  | .i64Store16, imm => .Store16 .U64 imm
  | .i64Store32, imm => .Store32 imm

/-- The sub-opcodes of the 0xFC miscellaneous group handled by
`compiler.go`. -/
inductive MiscOp
  | i32TruncSatF32S | i32TruncSatF32U | i32TruncSatF64S | i32TruncSatF64U
  | i64TruncSatF32S | i64TruncSatF32U | i64TruncSatF64S | i64TruncSatF64U
  | memoryInit | dataDrop | memoryCopy | memoryFill
  | tableInit | elemDrop | tableCopy | tableGrow | tableSize | tableFill
deriving DecidableEq, Repr

/-- The sub-opcode byte of each miscellaneous opcode. -/
def miscOfByte : Nat → Option MiscOp
  | 0 => some .i32TruncSatF32S
  | 1 => some .i32TruncSatF32U
  | 2 => some .i32TruncSatF64S
  | 3 => some .i32TruncSatF64U
  | 4 => some .i64TruncSatF32S
  | 5 => some .i64TruncSatF32U
  | 6 => some .i64TruncSatF64S
  | 7 => some .i64TruncSatF64U
  | 8 => some .memoryInit
  | 9 => some .dataDrop
  | 10 => some .memoryCopy
  | 11 => some .memoryFill
  | 12 => some .tableInit
  | 13 => some .elemDrop
  | 14 => some .tableCopy
  | 15 => some .tableGrow
  | 16 => some .tableSize
  | 17 => some .tableFill
  | _ => none

/-- The vector sub-opcodes handled by `compiler.go` (v128.const 0x0C,
i32x4.add 0xAE, i64x2.add 0xD1). -/
inductive VecOp
  | v128Const | i32x4Add | i64x2Add
deriving DecidableEq, Repr

/-- The sub-opcode byte of each vector opcode. -/
def vecOfByte : Nat → Option VecOp
  | 0x0C => some .v128Const
  | 0xAE => some .i32x4Add
  | 0xD1 => some .i64x2Add
  | _ => none

/-- The classified opcodes of `compiler.go`; one constructor per switch
case, with the grouped cases carrying their sub-classification. -/
inductive Op
  | unreachableOp | nop | block | loop | ifOp | elseOp | endOp
  | br | brIf | brTable | returnOp | call | callIndirect
  | typedSelect
  | localGet | localSet | localTee | globalGet | globalSet
  | tableGet | tableSet
  | i32Const | i64Const | f32Const | f64Const
  | memorySize | memoryGrow
  | refNull | refFunc
  | miscGroup | vecGroup
  | mem (mo : MemOp)
  | simple (so : SimpleOp)
deriving DecidableEq, Repr

/-- The opcode classification of each byte — the case labels of the
`handleInstruction` switch; bytes with no case map to `none`
("unsupported instruction"). -/
def opcodeOfByte : Nat → Option Op
  | 0x00 => some .unreachableOp
  | 0x01 => some .nop
  | 0x02 => some .block
  | 0x03 => some .loop
  | 0x04 => some .ifOp
  | 0x05 => some .elseOp
  | 0x0B => some .endOp
  | 0x0C => some .br
  | 0x0D => some .brIf
  | 0x0E => some .brTable
  | 0x0F => some .returnOp
  | 0x10 => some .call
  | 0x11 => some .callIndirect
  | 0x1A => some (.simple .dropOp)
  | 0x1B => some (.simple .select)
  | 0x1C => some .typedSelect
  | 0x20 => some .localGet
  | 0x21 => some .localSet
  | 0x22 => some .localTee
  | 0x23 => some .globalGet
  | 0x24 => some .globalSet
  | 0x25 => some .tableGet
  | 0x26 => some .tableSet
  | 0x28 => some (.mem .i32Load)
  | 0x29 => some (.mem .i64Load)
  | 0x2A => some (.mem .f32Load)
  | 0x2B => some (.mem .f64Load)
  | 0x2C => some (.mem .i32Load8S)
  | 0x2D => some (.mem .i32Load8U)
  | 0x2E => some (.mem .i32Load16S)
  | 0x2F => some (.mem .i32Load16U)
  | 0x30 => some (.mem .i64Load8S)
  | 0x31 => some (.mem .i64Load8U)
  | 0x32 => some (.mem .i64Load16S)
  | 0x33 => some (.mem .i64Load16U)
  | 0x34 => some (.mem .i64Load32S)
  | 0x35 => some (.mem .i64Load32U)
  | 0x36 => some (.mem .i32Store)
  | 0x37 => some (.mem .i64Store)
  | 0x38 => some (.mem .f32Store)
  | 0x39 => some (.mem .f64Store)
  | 0x3A => some (.mem .i32Store8)
  | 0x3B => some (.mem .i32Store16)
  | 0x3C => some (.mem .i64Store8)
  | 0x3D => some (.mem .i64Store16)
  | 0x3E => some (.mem .i64Store32)
  | 0x3F => some .memorySize
  | 0x40 => some .memoryGrow
  | 0x41 => some .i32Const
  | 0x42 => some .i64Const
  | 0x43 => some .f32Const
  | 0x44 => some .f64Const
  | 0x45 => some (.simple .i32Eqz)
  | 0x46 => some (.simple .i32Eq)
  | 0x47 => some (.simple .i32Ne)
  | 0x48 => some (.simple .i32LtS)
  | 0x49 => some (.simple .i32LtU)
  | 0x4A => some (.simple .i32GtS)
  | 0x4B => some (.simple .i32GtU)
  | 0x4C => some (.simple .i32LeS)
  | 0x4D => some (.simple .i32LeU)
  | 0x4E => some (.simple .i32GeS)
  | 0x4F => some (.simple .i32GeU)
  | 0x50 => some (.simple .i64Eqz)
  | 0x51 => some (.simple .i64Eq)
  | 0x52 => some (.simple .i64Ne)
  | 0x53 => some (.simple .i64LtS)
  | 0x54 => some (.simple .i64LtU)
  | 0x55 => some (.simple .i64GtS)
  | 0x56 => some (.simple .i64GtU)
  | 0x57 => some (.simple .i64LeS)
  | 0x58 => some (.simple .i64LeU)
  | 0x59 => some (.simple .i64GeS)
  | 0x5A => some (.simple .i64GeU)
  | 0x5B => some (.simple .f32Eq)
  | 0x5C => some (.simple .f32Ne)
  | 0x5D => some (.simple .f32Lt)
  | 0x5E => some (.simple .f32Gt)
  | 0x5F => some (.simple .f32Le)
  | 0x60 => some (.simple .f32Ge)
  | 0x61 => some (.simple .f64Eq)
  | 0x62 => some (.simple .f64Ne)
  | 0x63 => some (.simple .f64Lt)
  | 0x64 => some (.simple .f64Gt)
  | 0x65 => some (.simple .f64Le)
  | 0x66 => some (.simple .f64Ge)
  | 0x67 => some (.simple .i32Clz)
  | 0x68 => some (.simple .i32Ctz)
  | 0x69 => some (.simple .i32Popcnt)
  | 0x6A => some (.simple .i32Add)
  | 0x6B => some (.simple .i32Sub)
  | 0x6C => some (.simple .i32Mul)
  | 0x6D => some (.simple .i32DivS)
  | 0x6E => some (.simple .i32DivU)
  | 0x6F => some (.simple .i32RemS)
  | 0x70 => some (.simple .i32RemU)
  | 0x71 => some (.simple .i32And)
  | 0x72 => some (.simple .i32Or)
  | 0x73 => some (.simple .i32Xor)
  | 0x74 => some (.simple .i32Shl)
  | 0x75 => some (.simple .i32ShrS)
  | 0x76 => some (.simple .i32ShrU)
  | 0x77 => some (.simple .i32Rotl)
  | 0x78 => some (.simple .i32Rotr)
  | 0x79 => some (.simple .i64Clz)
  | 0x7A => some (.simple .i64Ctz)
  | 0x7B => some (.simple .i64Popcnt)
  | 0x7C => some (.simple .i64Add)
  | 0x7D => some (.simple .i64Sub)
  | 0x7E => some (.simple .i64Mul)
  | 0x7F => some (.simple .i64DivS)
  | 0x80 => some (.simple .i64DivU)
  | 0x81 => some (.simple .i64RemS)
  | 0x82 => some (.simple .i64RemU)
  | 0x83 => some (.simple .i64And)
  | 0x84 => some (.simple .i64Or)
  | 0x85 => some (.simple .i64Xor)
  | 0x86 => some (.simple .i64Shl)
  | 0x87 => some (.simple .i64ShrS)
  | 0x88 => some (.simple .i64ShrU)
  | 0x89 => some (.simple .i64Rotl)
  | 0x8A => some (.simple .i64Rotr)
  | 0x8B => some (.simple .f32Abs)
  | 0x8C => some (.simple .f32Neg)
  | 0x8D => some (.simple .f32Ceil)
  | 0x8E => some (.simple .f32Floor)
  | 0x8F => some (.simple .f32Trunc)
  | 0x90 => some (.simple .f32Nearest)
  | 0x91 => some (.simple .f32Sqrt)
  | 0x92 => some (.simple .f32Add)
  | 0x93 => some (.simple .f32Sub)
  | 0x94 => some (.simple .f32Mul)
  | 0x95 => some (.simple .f32Div)
  | 0x96 => some (.simple .f32Min)
  | 0x97 => some (.simple .f32Max)
  | 0x98 => some (.simple .f32Copysign)
  | 0x99 => some (.simple .f64Abs)
  | 0x9A => some (.simple .f64Neg)
  | 0x9B => some (.simple .f64Ceil)
  | 0x9C => some (.simple .f64Floor)
  | 0x9D => some (.simple .f64Trunc)
  | 0x9E => some (.simple .f64Nearest)
  | 0x9F => some (.simple .f64Sqrt)
  | 0xA0 => some (.simple .f64Add)
  | 0xA1 => some (.simple .f64Sub)
  | 0xA2 => some (.simple .f64Mul)
  | 0xA3 => some (.simple .f64Div)
  | 0xA4 => some (.simple .f64Min)
  | 0xA5 => some (.simple .f64Max)
  | 0xA6 => some (.simple .f64Copysign)
  | 0xA7 => some (.simple .i32WrapI64)
  | 0xA8 => some (.simple .i32TruncF32S)
  | 0xA9 => some (.simple .i32TruncF32U)
  | 0xAA => some (.simple .i32TruncF64S)
  | 0xAB => some (.simple .i32TruncF64U)
  | 0xAC => some (.simple .i64ExtendI32S)
  | 0xAD => some (.simple .i64ExtendI32U)
  | 0xAE => some (.simple .i64TruncF32S)
  | 0xAF => some (.simple .i64TruncF32U)
  | 0xB0 => some (.simple .i64TruncF64S)
  | 0xB1 => some (.simple .i64TruncF64U)
  | 0xB2 => some (.simple .f32ConvertI32S)
  | 0xB3 => some (.simple .f32ConvertI32U)
  | 0xB4 => some (.simple .f32ConvertI64S)
  | 0xB5 => some (.simple .f32ConvertI64U)
  | 0xB6 => some (.simple .f32DemoteF64)
  | 0xB7 => some (.simple .f64ConvertI32S)
  | 0xB8 => some (.simple .f64ConvertI32U)
  | 0xB9 => some (.simple .f64ConvertI64S)
  | 0xBA => some (.simple .f64ConvertI64U)
  | 0xBB => some (.simple .f64PromoteF32)
  | 0xBC => some (.simple .i32ReinterpretF32)
  | 0xBD => some (.simple .i64ReinterpretF64)
  | 0xBE => some (.simple .f32ReinterpretI32)
  | 0xBF => some (.simple .f64ReinterpretI64)
  | 0xC0 => some (.simple .i32Extend8S)
  | 0xC1 => some (.simple .i32Extend16S)
  | 0xC2 => some (.simple .i64Extend8S)
  | 0xC3 => some (.simple .i64Extend16S)
  | 0xC4 => some (.simple .i64Extend32S)
  | 0xD0 => some .refNull
  | 0xD1 => some (.simple .refIsNull)
  | 0xD2 => some .refFunc
  | 0xFC => some .miscGroup
  | 0xFD => some .vecGroup
  | _ => none

/-! ### Compiler state -/

/-- The compilation result fields `handleInstruction` writes: the emitted
operations, the label caller counts, and the data/element access flags.
(The module-level fields — signature, globals, types, memory/table flags —
are filled in by `CompileFunctions` and are not touched here.) -/
structure CompilationResult where
  Operations : List Operation
  LabelCallers : List (Option IRLabel × Nat)
  NeedsAccessToDataInstances : Bool
  NeedsAccessToElementInstances : Bool

/-- The `compiler` struct of `compiler.go`. -/
structure CState where
  enabledFeatures : Features
  stack : List UnsignedType
  currentID : Nat
  controlFrames : List controlFrame
  unreachableOn : Bool
  unreachableDepth : Nat
  pc : Nat
  result : CompilationResult
  body : List Nat
  sig : WFunctionType
  localTypes : List WValueType
  localIndexToStackHeight : List (Nat × Nat)
  types : List WFunctionType
  funcs : List Nat
  globals : List WGlobalType

/-- The compile-phase errors; `invalidFrameAccess`, `emptyStack` and
`invalidLocalIndex` stand for index panics that validated input never
reaches. -/
inductive CErr
  | pcOutOfRange
  | unsupportedInstruction
  | readImmediateFailed
  | unknownSignature
  | typeMismatch
  | emptyStack
  | cannotDetermineUnknownResult
  | invalidFrameAccess
  | invalidLocalIndex
  | indexMissing
deriving DecidableEq, Repr

/-- Embeds `compiler.markUnreachable`. -/
def markUnreachable (s : CState) : CState := { s with unreachableOn := true }

/-- Embeds `compiler.resetUnreachable`. -/
def resetUnreachable (s : CState) : CState := { s with unreachableOn := false }

/-- Whether `compiler.emit` keeps an operation: a `Drop` with nil range is
skipped. -/
def opKeep : Operation → Bool
  | .Drop none => false
  | _ => true

/-- Embeds `compiler.emit`: appends the operations to the result unless the
unreachable state is on. -/
def emit (s : CState) (ops : List Operation) : CState :=
  if s.unreachableOn then s
  else
    { s with result :=
        { s.result with Operations := s.result.Operations ++ ops.filter opKeep } }

/-- Embeds the `c.result.LabelCallers[label.String()] += n` bumps (nil
label keys the empty string, embedded as `none`). -/
def bumpLabelCaller (r : CompilationResult) (l : Option IRLabel) (n : Nat) :
    CompilationResult :=
  { r with LabelCallers :=
      if r.LabelCallers.any (fun p => p.1 = l) then
        r.LabelCallers.map (fun p => if p.1 = l then (p.1, p.2 + n) else p)
      else r.LabelCallers ++ [(l, n)] }

/-- Embeds `compiler.nextID`. -/
def nextID (s : CState) : CState × Nat :=
  ({ s with currentID := s.currentID + 1 }, s.currentID + 1)

/-- Embeds `controlFrames.get` (`frames[len-n-1]`; out of range is a Go
panic, embedded as `none`). -/
def frameGet (frames : List controlFrame) (n : Nat) : Option controlFrame :=
  if n < frames.length then frames.get? (frames.length - 1 - n) else none

/-- Writes back a frame that the Go code mutates through its pointer. -/
def frameSet (frames : List controlFrame) (n : Nat) (fr : controlFrame) :
    List controlFrame :=
  if n < frames.length then frames.set (frames.length - 1 - n) fr else frames

/-- Embeds `compiler.getFrameDropRange`. -/
def getFrameDropRange (stackLen : Nat) (frame : controlFrame) (isEnd : Bool) :
    Option InclusiveRange :=
  let start : Int :=
    if ¬isEnd ∧ frame.kind = .loop then frame.blockType.paramNumInUint64
    else frame.blockType.resultNumInUint64
  let stop : Int :=
    if frame.kind = .function then (stackLen : Int) - 1
    else (stackLen : Int) - 1 - frame.originalStackLenWithoutParam
  if start ≤ stop then some { start := start, stop := stop } else none

/-- Embeds `compiler.localDepth` (height lookup failure is the Go
`panic("BUG")`). -/
def localDepth (s : CState) (index : Nat) : Option Int :=
  match s.localIndexToStackHeight.lookup index with
  | none => none
  | some height => some ((s.stack.length : Int) - 1 - (height : Int))

/-- Embeds `compiler.localType` (an index panic is `none`). -/
def localTypeOf (s : CState) (index : Nat) : Option WValueType :=
  if index < s.sig.params.length then s.sig.params.get? index
  else s.localTypes.get? (index - s.sig.params.length)

/-- The per-opcode stack signature. -/
structure Signature where
  ins : List UnsignedType
  outs : List UnsignedType
deriving DecidableEq, Repr

/-- Modelled from the spec: the shape of `compiler.wasmOpcodeSignature`
(not under the provided sources): given the state, the opcode byte and the
decoded index immediate, the declared operand and result types, or `none`
for an error. The embedding is parametric in it. -/
def SigFn : Type := CState → Nat → Nat → Option Signature

/-- Embeds `compiler.stackPop` on the whole stack (top is the list end). -/
def stackPopTop (st : List UnsignedType) : Option (UnsignedType × List UnsignedType) :=
  match st.getLast? with
  | none => none
  | some t => some (t, st.dropLast)

/-- The operand-popping loop of `applyToStack`: wants are processed from
the last signature entry down, resolving the single `Unknown` type variable
from the first popped operand it matches. -/
def applyIns (wants : List UnsignedType) (stack : List UnsignedType)
    (tp : Option UnsignedType) : Except CErr (List UnsignedType × Option UnsignedType) :=
  match wants with
  | [] => .ok (stack, tp)
  | want :: rest =>
    match stackPopTop stack with
    | none => .error .emptyStack
    | some (actual, stack1) =>
      let resolved := if want = .Unknown then (match tp with | some t => t | none => actual)
        else want
      let tp1 := if want = .Unknown ∧ tp = none then some actual else tp
      if resolved = actual then applyIns rest stack1 tp1 else .error .typeMismatch

/-- The result-pushing loop of `applyToStack`. -/
def applyOuts (outs : List UnsignedType) (stack : List UnsignedType)
    (tp : Option UnsignedType) : Except CErr (List UnsignedType) :=
  match outs with
  | [] => .ok stack
  | t :: rest =>
    if t = .Unknown then
      match tp with
      | none => .error .cannotDetermineUnknownResult
      | some tv => applyOuts rest (stack ++ [tv]) tp
    else applyOuts rest (stack ++ [t]) tp

/-- The opcodes coupled with an index immediate that affects their
signature (`applyToStack` reads and consumes it). -/
def opHasIndexImm : Op → Bool
  | .call => true
  | .callIndirect => true
  | .localGet => true
  | .localSet => true
  | .localTee => true
  | .globalGet => true
  | .globalSet => true
  | _ => false

/-- The signature lookup and stack manipulation of `applyToStack` after the
index immediate has been consumed; in the unreachable state it returns
immediately. -/
def applyToStackRest (sigOf : SigFn) (s : CState) (opByte : Nat) (index : Option Nat) :
    Except CErr (CState × Option Nat) :=
  if s.unreachableOn then .ok (s, index)
  else
    match sigOf s opByte (index.getD 0) with
    | none => .error .unknownSignature
    | some sg =>
      match applyIns sg.ins.reverse s.stack none with
      | .error e => .error e
      | .ok (stack1, tp) =>
        match applyOuts sg.outs stack1 tp with
        | .error e => .error e
        | .ok stack2 => .ok ({ s with stack := stack2 }, index)

/-- Embeds `compiler.applyToStack`. -/
def applyToStack (sigOf : SigFn) (s : CState) (opByte : Nat) (op : Op) :
    Except CErr (CState × Option Nat) :=
  if opHasIndexImm op then
    match decodeUint32 (s.body.drop (s.pc + 1)) with
    | none => .error .readImmediateFailed
    | some (v, num) => applyToStackRest sigOf { s with pc := s.pc + num } opByte (some v)
  else applyToStackRest sigOf s opByte none

/-- Embeds `compiler.readMemoryImmediate`. -/
def readMemoryImmediate (s : CState) : Except CErr (CState × MemoryImmediate) :=
  match decodeUint32 (s.body.drop (s.pc + 1)) with
  | none => .error .readImmediateFailed
  | some (alignment, n1) =>
    let s1 := { s with pc := s.pc + n1 }
    match decodeUint32 (s1.body.drop (s1.pc + 1)) with
    | none => .error .readImmediateFailed
    | some (offset, n2) =>
      .ok ({ s1 with pc := s1.pc + n2 }, { alignment := alignment, offset := offset })

/-- The drop operation with range 0..0 (`&InclusiveRange{Start: 0, End: 0}`). -/
def dropOne : Operation := .Drop (some { start := 0, stop := 0 })

/-- The miscellaneous (0xFC) cases of `handleInstruction`; `s.pc` points at
the sub-opcode byte. The `NeedsAccessTo*` flags are set outside `emit`, so
they are recorded even in the unreachable state, as in the source. -/
def handleMisc (s : CState) (mo : MiscOp) : Except CErr CState :=
  match mo with
  | .i32TruncSatF32S => .ok (emit s [.ITruncFromF .F32 .Int32 true])
  | .i32TruncSatF32U => .ok (emit s [.ITruncFromF .F32 .Uint32 true])
  | .i32TruncSatF64S => .ok (emit s [.ITruncFromF .F64 .Int32 true])
  | .i32TruncSatF64U => .ok (emit s [.ITruncFromF .F64 .Uint32 true])
  | .i64TruncSatF32S => .ok (emit s [.ITruncFromF .F32 .Int64 true])
  | .i64TruncSatF32U => .ok (emit s [.ITruncFromF .F32 .Uint64 true])
  | .i64TruncSatF64S => .ok (emit s [.ITruncFromF .F64 .Int64 true])
  | .i64TruncSatF64U => .ok (emit s [.ITruncFromF .F64 .Uint64 true])
  | .memoryInit =>
    match decodeUint32 (s.body.drop (s.pc + 1)) with
    | none => .error .readImmediateFailed
    | some (dataIndex, num) =>
      let s1 := emit { s with pc := s.pc + num + 1 } [.MemoryInit dataIndex]
      .ok { s1 with result := { s1.result with NeedsAccessToDataInstances := true } }
  | .dataDrop =>
    match decodeUint32 (s.body.drop (s.pc + 1)) with
    | none => .error .readImmediateFailed
    | some (dataIndex, num) =>
      let s1 := emit { s with pc := s.pc + num } [.DataDrop dataIndex]
      .ok { s1 with result := { s1.result with NeedsAccessToDataInstances := true } }
  | .memoryCopy => .ok (emit { s with pc := s.pc + 2 } [.MemoryCopy])
  | .memoryFill => .ok (emit { s with pc := s.pc + 1 } [.MemoryFill])
  | .tableInit =>
    match decodeUint32 (s.body.drop (s.pc + 1)) with
    | none => .error .readImmediateFailed
    | some (elemIndex, num) =>
      let s1 := { s with pc := s.pc + num }
      match decodeUint32 (s1.body.drop (s1.pc + 1)) with
      | none => .error .readImmediateFailed
      | some (tableIndex, num2) =>
        let s2 := emit { s1 with pc := s1.pc + num2 } [.TableInit elemIndex tableIndex]
        .ok { s2 with result := { s2.result with NeedsAccessToElementInstances := true } }
  | .elemDrop =>
    match decodeUint32 (s.body.drop (s.pc + 1)) with
    | none => .error .readImmediateFailed
    | some (elemIndex, num) =>
      let s1 := emit { s with pc := s.pc + num } [.ElemDrop elemIndex]
      .ok { s1 with result := { s1.result with NeedsAccessToElementInstances := true } }
  | .tableCopy =>
    match decodeUint32 (s.body.drop (s.pc + 1)) with
    | none => .error .readImmediateFailed
    | some (dst, num) =>
      let s1 := { s with pc := s.pc + num }
      match decodeUint32 (s1.body.drop (s1.pc + 1)) with
      | none => .error .readImmediateFailed
      | some (src, num2) =>
        let s2 := emit { s1 with pc := s1.pc + num2 } [.TableCopy src dst]
        .ok { s2 with result := { s2.result with NeedsAccessToElementInstances := true } }
  | .tableGrow =>
    match decodeUint32 (s.body.drop (s.pc + 1)) with
    | none => .error .readImmediateFailed
    | some (tableIndex, num) =>
      let s1 := emit { s with pc := s.pc + num } [.TableGrow tableIndex]
      .ok { s1 with result := { s1.result with NeedsAccessToElementInstances := true } }
  | .tableSize =>
    match decodeUint32 (s.body.drop (s.pc + 1)) with
    | none => .error .readImmediateFailed
    | some (tableIndex, num) =>
      let s1 := emit { s with pc := s.pc + num } [.TableSize tableIndex]
      .ok { s1 with result := { s1.result with NeedsAccessToElementInstances := true } }
  | .tableFill =>
    match decodeUint32 (s.body.drop (s.pc + 1)) with
    | none => .error .readImmediateFailed
    | some (tableIndex, num) =>
      let s1 := emit { s with pc := s.pc + num } [.TableFill tableIndex]
      .ok { s1 with result := { s1.result with NeedsAccessToElementInstances := true } }

/-- The vector (0xFD) cases of `handleInstruction`; `s.pc` points at the
sub-opcode byte. -/
def handleVec (s : CState) (vo : VecOp) : Except CErr CState :=
  match vo with
  | .v128Const =>
    let s1 := { s with pc := s.pc + 1 }
    match readBytesAt s1.body s1.pc 8 with
    | none => .error .pcOutOfRange
    | some loBytes =>
      let s2 := { s1 with pc := s1.pc + 8 }
      match readBytesAt s2.body s2.pc 8 with
      | none => .error .pcOutOfRange
      | some hiBytes =>
        let s3 := emit s2 [.ConstV128 (leToNat loBytes) (leToNat hiBytes)]
        .ok { s3 with pc := s3.pc + 7 }
  | .i32x4Add => .ok (emit s [.I32x4Add])
  | .i64x2Add => .ok (emit s [.I64x2Add])

/-- Collects the branch targets of a `br_table`, threading the state: per
target a LEB128 label index is consumed, the frame fetched, its continuation
ensured and written back, the drop range computed against the current stack
height, and the target label's caller count bumped. -/
def brTableTargets (s : CState) : Nat → Except CErr (CState × List BranchTargetDrop)
  | 0 => .ok (s, [])
  | k + 1 =>
    match decodeUint32 (s.body.drop (s.pc + 1)) with
    | none => .error .readImmediateFailed
    | some (l, n) =>
      let s1 := { s with pc := s.pc + n }
      match frameGet s1.controlFrames l with
      | none => .error .invalidFrameAccess
      | some tf =>
        let tf1 := tf.ensureContinuation
        let frames1 := frameSet s1.controlFrames l tf1
        let dropRange := getFrameDropRange s1.stack.length tf1 false
        let target : BranchTargetDrop := { toDrop := dropRange, target := tf1.asBranchTarget }
        let s2 := { s1 with
          controlFrames := frames1
          result := bumpLabelCaller s1.result tf1.asBranchTarget.label 1 }
        match brTableTargets s2 k with
        | .error e => .error e
        | .ok (s3, rest) => .ok (s3, target :: rest)

/-- The body of the `handleInstruction` switch, one branch per case. `s` is
the state after `applyToStack`; the returned flag marks the single early
`return nil` (the function-ending `end` in the unreachable state), which
skips the final `c.pc++`. -/
def handleOp (s : CState) (op : Op) (index : Option Nat) : Except CErr (CState × Bool) :=
  match op with
  | .unreachableOp => .ok (markUnreachable (emit s [.Unreachable]), false)
  | .nop => .ok (s, false)
  | .block =>
    match DecodeBlockType s.types (s.body.drop (s.pc + 1)) s.enabledFeatures with
    | none => .error .readImmediateFailed
    | some (bt, num) =>
      let s1 := { s with pc := s.pc + num }
      if s1.unreachableOn then
        .ok ({ s1 with unreachableDepth := s1.unreachableDepth + 1 }, false)
      else
        let p := nextID s1
        let frame : controlFrame :=
          { frameID := p.2
            originalStackLenWithoutParam := (p.1.stack.length : Int) - bt.paramNumInUint64
            kind := .blockWithoutContinuationLabel
            blockType := bt }
        .ok ({ p.1 with controlFrames := p.1.controlFrames ++ [frame] }, false)
  | .loop =>
    match DecodeBlockType s.types (s.body.drop (s.pc + 1)) s.enabledFeatures with
    | none => .error .readImmediateFailed
    | some (bt, num) =>
      let s1 := { s with pc := s.pc + num }
      if s1.unreachableOn then
        .ok ({ s1 with unreachableDepth := s1.unreachableDepth + 1 }, false)
      else
        let p := nextID s1
        let frame : controlFrame :=
          { frameID := p.2
            originalStackLenWithoutParam := (p.1.stack.length : Int) - bt.paramNumInUint64
            kind := .loop
            blockType := bt }
        let s3 := { p.1 with controlFrames := p.1.controlFrames ++ [frame] }
        let loopLabel : IRLabel := { frameID := p.2, kind := .Header }
        let s4 := { s3 with result := bumpLabelCaller s3.result (some loopLabel) 1 }
        .ok (emit s4 [.Br loopLabel.asBranchTarget, .Label loopLabel], false)
  | .ifOp =>
    match DecodeBlockType s.types (s.body.drop (s.pc + 1)) s.enabledFeatures with
    | none => .error .readImmediateFailed
    | some (bt, num) =>
      let s1 := { s with pc := s.pc + num }
      if s1.unreachableOn then
        .ok ({ s1 with unreachableDepth := s1.unreachableDepth + 1 }, false)
      else
        let p := nextID s1
        let frame : controlFrame :=
          { frameID := p.2
            originalStackLenWithoutParam := (p.1.stack.length : Int) - bt.paramNumInUint64
            kind := .ifWithoutElse
            blockType := bt }
        let s3 := { p.1 with controlFrames := p.1.controlFrames ++ [frame] }
        let thenLabel : IRLabel := { frameID := p.2, kind := .Header }
        let elseLabel : IRLabel := { frameID := p.2, kind := .Else }
        let s4 := { s3 with
          result :=
            bumpLabelCaller (bumpLabelCaller s3.result (some thenLabel) 1) (some elseLabel) 1 }
        .ok (emit s4 [.BrIf thenLabel.asBranchTargetDrop elseLabel.asBranchTargetDrop,
          .Label thenLabel], false)
  | .elseOp =>
    match s.controlFrames.getLast? with
    | none => .error .invalidFrameAccess
    | some frame =>
      if s.unreachableOn ∧ s.unreachableDepth > 0 then .ok (s, false)
      else if s.unreachableOn then
        let stack1 := (s.stack.take frame.originalStackLenWithoutParam.toNat) ++
          unsignedTypesOf frame.blockType.params
        let frames1 := s.controlFrames.dropLast ++ [{ frame with kind := .ifWithElse }]
        let elseLabel : IRLabel := { frameID := frame.frameID, kind := .Else }
        let s1 := resetUnreachable { s with stack := stack1, controlFrames := frames1 }
        .ok (emit s1 [.Label elseLabel], false)
      else
        let frame1 := { frame with kind := .ifWithElse }
        let frames1 := s.controlFrames.dropLast ++ [frame1]
        let dropRange := getFrameDropRange s.stack.length frame1 false
        let stack1 := (s.stack.take frame1.originalStackLenWithoutParam.toNat) ++
          unsignedTypesOf frame1.blockType.params
        let elseLabel : IRLabel := { frameID := frame1.frameID, kind := .Else }
        let contLabel : IRLabel := { frameID := frame1.frameID, kind := .Continuation }
        let s1 := { s with
          stack := stack1
          controlFrames := frames1
          result := bumpLabelCaller s.result (some contLabel) 1 }
        .ok (emit s1 [.Drop dropRange, .Br contLabel.asBranchTarget, .Label elseLabel], false)
  | .endOp =>
    if s.unreachableOn ∧ s.unreachableDepth > 0 then
      .ok ({ s with unreachableDepth := s.unreachableDepth - 1 }, false)
    else if s.unreachableOn then
      let s0 := resetUnreachable s
      match s0.controlFrames.getLast? with
      | none => .error .invalidFrameAccess
      | some frame =>
        let s1 := { s0 with controlFrames := s0.controlFrames.dropLast }
        if s1.controlFrames.isEmpty then .ok (s1, true)
        else
          let stack1 := (s1.stack.take frame.originalStackLenWithoutParam.toNat) ++
            unsignedTypesOf frame.blockType.results
          let s2 := { s1 with stack := stack1 }
          let contLabel : IRLabel := { frameID := frame.frameID, kind := .Continuation }
          if frame.kind = .ifWithoutElse then
            let elseLabel : IRLabel := { frameID := frame.frameID, kind := .Else }
            let s3 := { s2 with result := bumpLabelCaller s2.result (some contLabel) 1 }
            .ok (emit s3 [.Label elseLabel, .Br contLabel.asBranchTarget, .Label contLabel],
              false)
          else
            .ok (emit s2 [.Label contLabel], false)
    else
      match s.controlFrames.getLast? with
      | none => .error .invalidFrameAccess
      | some frame =>
        let frames1 := s.controlFrames.dropLast
        let dropRange := getFrameDropRange s.stack.length frame true
        let stack1 := (s.stack.take frame.originalStackLenWithoutParam.toNat) ++
          unsignedTypesOf frame.blockType.results
        let s1 := { s with controlFrames := frames1, stack := stack1 }
        match frame.kind with
        | .function =>
          if ¬frames1.isEmpty then .error .invalidFrameAccess
          else .ok (emit s1 [.Drop dropRange, .Br { label := none }], false)
        | .ifWithoutElse =>
          let elseLabel : IRLabel := { frameID := frame.frameID, kind := .Else }
          let contLabel : IRLabel := { frameID := frame.frameID, kind := .Continuation }
          let s2 := { s1 with result := bumpLabelCaller s1.result (some contLabel) 2 }
          .ok (emit s2 [.Drop dropRange, .Br contLabel.asBranchTarget, .Label elseLabel,
            .Br contLabel.asBranchTarget, .Label contLabel], false)
        | .blockWithContinuationLabel =>
          let contLabel : IRLabel := { frameID := frame.frameID, kind := .Continuation }
          let s2 := { s1 with result := bumpLabelCaller s1.result (some contLabel) 1 }
          .ok (emit s2 [.Drop dropRange, .Br contLabel.asBranchTarget, .Label contLabel], false)
        | .ifWithElse =>
          let contLabel : IRLabel := { frameID := frame.frameID, kind := .Continuation }
          let s2 := { s1 with result := bumpLabelCaller s1.result (some contLabel) 1 }
          .ok (emit s2 [.Drop dropRange, .Br contLabel.asBranchTarget, .Label contLabel], false)
        | .loop => .ok (emit s1 [.Drop dropRange], false)
        | .blockWithoutContinuationLabel => .ok (emit s1 [.Drop dropRange], false)
  | .br =>
    match decodeUint32 (s.body.drop (s.pc + 1)) with
    | none => .error .readImmediateFailed
    | some (targetIndex, n) =>
      let s1 := { s with pc := s.pc + n }
      match frameGet s1.controlFrames targetIndex with
      | none => .error .invalidFrameAccess
      | some tf =>
        let tf1 := tf.ensureContinuation
        let frames1 := frameSet s1.controlFrames targetIndex tf1
        let dropRange := getFrameDropRange s1.stack.length tf1 false
        let target := tf1.asBranchTarget
        let s2 := { s1 with
          controlFrames := frames1
          result := bumpLabelCaller s1.result target.label 1 }
        .ok (markUnreachable (emit s2 [.Drop dropRange, .Br target]), false)
  | .brIf =>
    match decodeUint32 (s.body.drop (s.pc + 1)) with
    | none => .error .readImmediateFailed
    | some (targetIndex, n) =>
      let s1 := { s with pc := s.pc + n }
      match frameGet s1.controlFrames targetIndex with
      | none => .error .invalidFrameAccess
      | some tf =>
        let tf1 := tf.ensureContinuation
        let frames1 := frameSet s1.controlFrames targetIndex tf1
        let dropRange := getFrameDropRange s1.stack.length tf1 false
        let target := tf1.asBranchTarget
        let s2 := { s1 with
          controlFrames := frames1
          result := bumpLabelCaller s1.result target.label 1 }
        let p := nextID s2
        let contLabel : IRLabel := { frameID := p.2, kind := .Header }
        let s3 := { p.1 with result := bumpLabelCaller p.1.result (some contLabel) 1 }
        .ok (emit s3 [.BrIf { toDrop := dropRange, target := target }
          contLabel.asBranchTargetDrop, .Label contLabel], false)
  | .brTable =>
    match decodeUint32 (s.body.drop (s.pc + 1)) with
    | none => .error .readImmediateFailed
    | some (numTargets, n) =>
      let s1 := { s with pc := s.pc + n }
      match brTableTargets s1 numTargets with
      | .error e => .error e
      | .ok (s2, targets) =>
        match decodeUint32 (s2.body.drop (s2.pc + 1)) with
        | none => .error .readImmediateFailed
        | some (l, n2) =>
          let s3 := { s2 with pc := s2.pc + n2 }
          match frameGet s3.controlFrames l with
          | none => .error .invalidFrameAccess
          | some tf =>
            let tf1 := tf.ensureContinuation
            let frames1 := frameSet s3.controlFrames l tf1
            let dropRange := getFrameDropRange s3.stack.length tf1 false
            let s4 := { s3 with
              controlFrames := frames1
              result := bumpLabelCaller s3.result tf1.asBranchTarget.label 1 }
            .ok (markUnreachable (emit s4
              [.BrTable targets { toDrop := dropRange, target := tf1.asBranchTarget }]), false)
  | .returnOp =>
    match s.controlFrames.head? with
    | none => .error .invalidFrameAccess
    | some ff =>
      let dropRange := getFrameDropRange s.stack.length ff false
      .ok (markUnreachable (emit s [.Drop dropRange, .Br ff.asBranchTarget]), false)
  | .call =>
    match index with
    | none => .error .indexMissing
    | some idx => .ok (emit s [.Call idx], false)
  | .callIndirect =>
    match index with
    | none => .error .indexMissing
    | some idx =>
      match decodeUint32 (s.body.drop (s.pc + 1)) with
      | none => .error .readImmediateFailed
      | some (tableIndex, n) =>
        .ok (emit { s with pc := s.pc + n } [.CallIndirect idx tableIndex], false)
  | .typedSelect => .ok (emit { s with pc := s.pc + 2 } [.Select], false)
  | .localGet =>
    match index with
    | none => .error .indexMissing
    | some id =>
      match localDepth s id with
      | none => .error .invalidLocalIndex
      | some depth =>
        match localTypeOf s id with
        | none => .error .invalidLocalIndex
        | some t =>
          if t = .v128 then
            .ok (emit s [.Pick (depth - 2), .Pick (depth - 2)], false)
          else
            .ok (emit s [.Pick (depth - 1)], false)
  | .localSet =>
    match index with
    | none => .error .indexMissing
    | some id =>
      match localDepth s id with
      | none => .error .invalidLocalIndex
      | some depth =>
        match localTypeOf s id with
        | none => .error .invalidLocalIndex
        | some t =>
          if t = .v128 then
            .ok (emit s [.Swap (depth + 1), dropOne, .Swap (depth + 1), dropOne], false)
          else
            .ok (emit s [.Swap (depth + 1), dropOne], false)
  | .localTee =>
    match index with
    | none => .error .indexMissing
    | some id =>
      match localDepth s id with
      | none => .error .invalidLocalIndex
      | some depth =>
        match localTypeOf s id with
        | none => .error .invalidLocalIndex
        | some t =>
          if t = .v128 then
            .ok (emit s [.Pick 1, .Pick 1, .Swap (depth + 1), dropOne,
              .Swap (depth + 1), dropOne], false)
          else
            .ok (emit s [.Pick 0, .Swap (depth + 1), dropOne], false)
  | .globalGet =>
    match index with
    | none => .error .indexMissing
    | some idx => .ok (emit s [.GlobalGet idx], false)
  | .globalSet =>
    match index with
    | none => .error .indexMissing
    | some idx => .ok (emit s [.GlobalSet idx], false)
  | .tableGet =>
    let s1 := { s with pc := s.pc + 1 }
    match decodeUint32 (s1.body.drop s1.pc) with
    | none => .error .readImmediateFailed
    | some (tableIndex, num) =>
      .ok (emit { s1 with pc := s1.pc + num - 1 } [.TableGet tableIndex], false)
  | .tableSet =>
    let s1 := { s with pc := s.pc + 1 }
    match decodeUint32 (s1.body.drop s1.pc) with
    | none => .error .readImmediateFailed
    | some (tableIndex, num) =>
      .ok (emit { s1 with pc := s1.pc + num - 1 } [.TableSet tableIndex], false)
  | .refFunc =>
    let s1 := { s with pc := s.pc + 1 }
    match decodeUint32 (s1.body.drop s1.pc) with
    | none => .error .readImmediateFailed
    | some (idx, num) =>
      .ok (emit { s1 with pc := s1.pc + num - 1 } [.RefFunc idx], false)
  | .refNull => .ok (emit { s with pc := s.pc + 1 } [.ConstI64 0], false)
  | .i32Const =>
    match decodeInt32 (s.body.drop (s.pc + 1)) with
    | none => .error .readImmediateFailed
    | some (v, num) =>
      .ok (emit { s with pc := s.pc + num } [.ConstI32 (toUint32 v)], false)
  | .i64Const =>
    match decodeInt64 (s.body.drop (s.pc + 1)) with
    | none => .error .readImmediateFailed
    | some (v, num) =>
      .ok (emit { s with pc := s.pc + num } [.ConstI64 (toUint64 v)], false)
  | .f32Const =>
    match readBytesAt s.body (s.pc + 1) 4 with
    | none => .error .pcOutOfRange
    | some bytes =>
      .ok (emit { s with pc := s.pc + 4 } [.ConstF32 (leToNat bytes)], false)
  | .f64Const =>
    match readBytesAt s.body (s.pc + 1) 8 with
    | none => .error .pcOutOfRange
    | some bytes =>
      .ok (emit { s with pc := s.pc + 8 } [.ConstF64 (leToNat bytes)], false)
  | .memorySize => .ok (emit { s with pc := s.pc + 1 } [.MemorySize], false)
  | .memoryGrow => .ok (emit { s with pc := s.pc + 1 } [.MemoryGrow], false)
  | .miscGroup =>
    let s1 := { s with pc := s.pc + 1 }
    match s1.body.get? s1.pc with
    | none => .error .pcOutOfRange
    | some mb =>
      match miscOfByte mb with
      | none => .error .unsupportedInstruction
      | some mo =>
        match handleMisc s1 mo with
        | .error e => .error e
        | .ok s2 => .ok (s2, false)
  | .vecGroup =>
    let s1 := { s with pc := s.pc + 1 }
    match s1.body.get? s1.pc with
    | none => .error .pcOutOfRange
    | some vb =>
      match vecOfByte vb with
      | none => .error .unsupportedInstruction
      | some vo =>
        match handleVec s1 vo with
        | .error e => .error e
        | .ok s2 => .ok (s2, false)
  | .mem mo =>
    match readMemoryImmediate s with
    | .error e => .error e
    | .ok (s1, imm) => .ok (emit s1 [memEmit mo imm], false)
  | .simple so => .ok (emit s [simpleEmit so], false)

/-- Embeds `compiler.handleInstruction`: reads the opcode byte, applies the
stack effect, runs the per-opcode case, then advances past the opcode byte
(except at the early return of the function-ending `end` in the unreachable
state). -/
def handleInstruction (sigOf : SigFn) (s : CState) : Except CErr CState :=
  match s.body.get? s.pc with
  | none => .error .pcOutOfRange
  | some opByte =>
    match opcodeOfByte opByte with
    | none => .error .unsupportedInstruction
    | some op =>
      match applyToStack sigOf s opByte op with
      | .error e => .error e
      | .ok (s1, index) =>
        match handleOp s1 op index with
        | .error e => .error e
        | .ok (s2, earlyReturn) =>
          if earlyReturn then .ok s2 else .ok { s2 with pc := s2.pc + 1 }

/-- Embeds `compiler.emitDefaultValue`. -/
def emitDefaultValue (s : CState) (t : WValueType) : CState :=
  match t with
  | .i32 => emit { s with stack := s.stack ++ [.I32] } [.ConstI32 0]
  | .i64 => emit { s with stack := s.stack ++ [.I64] } [.ConstI64 0]
  | .externref => emit { s with stack := s.stack ++ [.I64] } [.ConstI64 0]
  | .funcref => emit { s with stack := s.stack ++ [.I64] } [.ConstI64 0]
  | .f32 => emit { s with stack := s.stack ++ [.F32] } [.ConstF32 0]
  | .f64 => emit { s with stack := s.stack ++ [.F64] } [.ConstF64 0]
  | .v128 =>
    let s1 := emit { s with stack := s.stack ++ [.I64] } [.ConstI64 0]
    emit { s1 with stack := s1.stack ++ [.I64] } [.ConstI64 0]

/-- Embeds `compiler.calcLocalIndexToStackHeight`: the stack height of each
local (params first), a v128 advancing the height by two. -/
def calcHeights : List WValueType → Nat → Nat → List (Nat × Nat)
  | [], _, _ => []
  | t :: rest, idx, current =>
    (idx, current) :: calcHeights rest (idx + 1) (current + (if t = .v128 then 2 else 1))

/-- The compile loop of `compile`: handle instructions while control frames
remain and the program counter is in the body. The fuel bound
`body.length + 1` is never reached because every step either advances the
program counter or empties the control frames. -/
def compileLoop (sigOf : SigFn) : Nat → CState → Except CErr CState
  | 0, _ => .error .pcOutOfRange
  | fuel + 1, s =>
    if ¬s.controlFrames.isEmpty ∧ s.pc < s.body.length then
      match handleInstruction sigOf s with
      | .error e => .error e
      | .ok s1 => compileLoop sigOf fuel s1
    else .ok s

/-- Embeds `compile` of `compiler.go`: pushes the parameter slots, emits
default values for the locals, pushes the function control frame, and runs
the body. -/
def compileFn (sigOf : SigFn) (features : Features) (sig : WFunctionType) (body : List Nat)
    (localTypes : List WValueType) (types : List WFunctionType) (functions : List Nat)
    (globals : List WGlobalType) : Except CErr CompilationResult :=
  let s0 : CState :=
    { enabledFeatures := features
      stack := unsignedTypesOf sig.params
      currentID := 0
      controlFrames := []
      unreachableOn := false
      unreachableDepth := 0
      pc := 0
      result := { Operations := [], LabelCallers := []
                  NeedsAccessToDataInstances := false
                  NeedsAccessToElementInstances := false }
      body := body
      sig := sig
      localTypes := localTypes
      localIndexToStackHeight := calcHeights (sig.params ++ localTypes) 0 0
      types := types
      funcs := functions
      globals := globals }
  let s1 := localTypes.foldl emitDefaultValue s0
  let p := nextID s1
  let s3 := { p.1 with controlFrames :=
    [{ frameID := p.2, originalStackLenWithoutParam := 0, blockType := sig,
       kind := .function }] }
  match compileLoop sigOf (body.length + 1) s3 with
  | .error e => .error e
  | .ok s4 => .ok s4.result

/-! ### Concrete states for evaluating the lowering -/

/-- The empty function type. -/
def emptyFnType : WFunctionType := { params := [], results := [] }

/-- A minimal compiler state for concrete evaluation. -/
def cW : CState :=
  { enabledFeatures := Features20191205
    stack := []
    currentID := 0
    controlFrames := []
    unreachableOn := false
    unreachableDepth := 0
    pc := 0
    result := { Operations := [], LabelCallers := []
                NeedsAccessToDataInstances := false
                NeedsAccessToElementInstances := false }
    body := []
    sig := emptyFnType
    localTypes := []
    localIndexToStackHeight := []
    types := []
    funcs := []
    globals := [] }

/-- A function control frame for concrete evaluation. -/
def frW : controlFrame :=
  { frameID := 1, originalStackLenWithoutParam := 0, blockType := emptyFnType
    kind := .function }

/-- A signature oracle with no opcode signatures (never consulted in the
unreachable state). -/
def sigNone : SigFn := fun _ _ _ => none

/-- The unreachable state sitting on a `nop` byte. -/
def cWnop : CState := { cW with unreachableOn := true, body := [0x01] }

/-- The unreachable state sitting on a `block` with an empty block type. -/
def cWblock : CState := { cW with unreachableOn := true, body := [0x02, 0x40] }

/-- The unreachable state at nesting depth one. -/
def cWdepth : CState := { cW with unreachableOn := true, unreachableDepth := 1 }

/-- The unreachable state at depth zero with one open frame. -/
def cWend : CState := { cW with unreachableOn := true, controlFrames := [frW] }

/-- The state component of a successful `handleOp`. -/
def hopState (s : CState) (op : Op) (idx : Option Nat) : CState :=
  match handleOp s op idx with
  | .ok p => p.1
  | .error _ => s

/-- The state of a successful `handleInstruction`. -/
def hiState (sigOf : SigFn) (s : CState) : CState :=
  match handleInstruction sigOf s with
  | .ok t => t
  | .error _ => s

/-- C7: setting `bulk_memory_operations` sets `reference_types` to the same
value and vice-versa, so in every configuration produced by the constructors
and `With*` methods of `config.go` the two flags agree. -/
theorem c7_bulk_memory_iff_reference_types :
    (∀ (c : runtimeConfig) (e : Bool),
      (c.WithFeatureBulkMemoryOperations e).enabledFeatures.bulkMemoryOperations = e ∧
      (c.WithFeatureBulkMemoryOperations e).enabledFeatures.referenceTypes = e ∧
      (c.WithFeatureReferenceTypes e).enabledFeatures.referenceTypes = e ∧
      (c.WithFeatureReferenceTypes e).enabledFeatures.bulkMemoryOperations = e) ∧
    (∀ c : runtimeConfig, c.Reachable →
      (c.enabledFeatures.bulkMemoryOperations = true ↔
        c.enabledFeatures.referenceTypes = true)) := by
  constructor
  · intro c e
    refine ⟨rfl, rfl, rfl, rfl⟩
  · intro c h
    induction h with
    | interp => simp [NewRuntimeConfigInterpreter, engineLessConfig, Features20191205]
    | compiler => simp [NewRuntimeConfigCompiler, engineLessConfig, Features20191205]
    | bulk e _ _ => simp [runtimeConfig.WithFeatureBulkMemoryOperations]
    | multiValue e _ ih => simpa [runtimeConfig.WithFeatureMultiValue] using ih
    | mutableGlobal e _ ih => simpa [runtimeConfig.WithFeatureMutableGlobal] using ih
    | nonTrapping e _ ih =>
        simpa [runtimeConfig.WithFeatureNonTrappingFloatToIntConversion] using ih
    | refTypes e _ _ => simp [runtimeConfig.WithFeatureReferenceTypes]
    | signExt e _ ih => simpa [runtimeConfig.WithFeatureSignExtensionOps] using ih
    | simd e _ ih => simpa [runtimeConfig.WithFeatureSIMD] using ih
    | core1 _ ih => simp [runtimeConfig.WithWasmCore1, Features20191205]
    | core2 _ ih => simp [runtimeConfig.WithWasmCore2, Features20220419]

/-- Witness for C7: the second part applied to a concrete reachable
configuration, the first to concrete arguments. -/
theorem c7_bulk_memory_iff_reference_types_witness :
    ((NewRuntimeConfigInterpreter.WithFeatureBulkMemoryOperations
        true).enabledFeatures.bulkMemoryOperations = true ∧
      (NewRuntimeConfigInterpreter.WithFeatureBulkMemoryOperations
        true).enabledFeatures.referenceTypes = true ∧
      (NewRuntimeConfigInterpreter.WithFeatureReferenceTypes
        true).enabledFeatures.referenceTypes = true ∧
      (NewRuntimeConfigInterpreter.WithFeatureReferenceTypes
        true).enabledFeatures.bulkMemoryOperations = true) ∧
    ((NewRuntimeConfigInterpreter.WithFeatureBulkMemoryOperations
        true).enabledFeatures.bulkMemoryOperations = true ↔
      (NewRuntimeConfigInterpreter.WithFeatureBulkMemoryOperations
        true).enabledFeatures.referenceTypes = true) :=
  ⟨c7_bulk_memory_iff_reference_types.1 NewRuntimeConfigInterpreter true,
   c7_bulk_memory_iff_reference_types.2 _
     (runtimeConfig.Reachable.bulk true runtimeConfig.Reachable.interp)⟩

theorem buildEnviron_ok_of_valid (ps : List (GoStr × GoStr))
    (hv : ∀ kv ∈ ps, validEnvKey kv.1) :
    buildEnviron (flattenPairs ps) = .ok (ps.map (fun kv => kv.1 ++ [61] ++ kv.2)) := by
  induction ps with
  | nil => rfl
  | cons kv rest ih =>
    obtain ⟨hne, hq⟩ := hv kv (List.mem_cons_self _ _)
    have h1 : ¬ kv.1.length = 0 := by
      simpa [List.length_eq_zero] using hne
    have h2 : ¬ kv.1.any (fun b => b = 61) = true := by
      simpa [List.any_eq_true] using hq
    have ihok := ih (fun x hx => hv x (List.mem_cons_of_mem _ hx))
    show buildEnviron (kv.1 :: kv.2 :: flattenPairs rest) = _
    simp [buildEnviron, h1, h2, ihok]

theorem buildEnviron_error_of_invalid (ps : List (GoStr × GoStr))
    (hv : ∃ kv ∈ ps, ¬validEnvKey kv.1) :
    ∃ e, buildEnviron (flattenPairs ps) = .error e := by
  induction ps with
  | nil => simp at hv
  | cons kv rest ih =>
    by_cases hk : validEnvKey kv.1
    · obtain ⟨hne, hq⟩ := hk
      have h1 : ¬ kv.1.length = 0 := by
        simpa [List.length_eq_zero] using hne
      have h2 : ¬ kv.1.any (fun b => b = 61) = true := by
        simpa [List.any_eq_true] using hq
      have hrest : ∃ x ∈ rest, ¬validEnvKey x.1 := by
        rcases hv with ⟨x, hx, hxv⟩
        rcases List.mem_cons.1 hx with rfl | hx
        · exact absurd ⟨hne, hq⟩ hxv
        · exact ⟨x, hx, hxv⟩
      obtain ⟨e, he⟩ := ih hrest
      refine ⟨e, ?_⟩
      show buildEnviron (kv.1 :: kv.2 :: flattenPairs rest) = _
      simp [buildEnviron, h1, h2, he]
    · by_cases h0 : kv.1 = []
      · refine ⟨.environEmptyKey, ?_⟩
        show buildEnviron (kv.1 :: kv.2 :: flattenPairs rest) = _
        simp [buildEnviron, h0]
      · have hmem : 61 ∈ kv.1 := by
          by_contra hq
          exact hk ⟨h0, hq⟩
        have h1 : ¬ kv.1.length = 0 := by
          simpa [List.length_eq_zero] using h0
        have h2 : kv.1.any (fun b => b = 61) = true := by
          simpa [List.any_eq_true] using hmem
        refine ⟨.environKeyContainsEq, ?_⟩
        show buildEnviron (kv.1 :: kv.2 :: flattenPairs rest) = _
        simp [buildEnviron, h1, h2]

/-- C8: with every preopened file system non-nil, `toSysContext` fails
exactly when some configured environment key is empty or contains the byte
`=` (61); otherwise it succeeds and renders every pair as `key=value`. -/
theorem c8_toSysContext_env_validation (h : Heap) (c : moduleConfig)
    (ps : List (GoStr × GoStr))
    (henv : h.readSlice c.environ = flattenPairs ps)
    (hfs : ∀ p ∈ h.readFdMap c.preopens, p.2.fs ≠ none) :
    ((∃ e, (c.toSysContext h).2 = .error e) ↔ ∃ kv ∈ ps, ¬validEnvKey kv.1) ∧
    (∀ sys, (c.toSysContext h).2 = .ok sys →
      sys.environ = ps.map (fun kv => kv.1 ++ [61] ++ kv.2)) := by
  have hfind : (h.readFdMap c.preopens).find? (fun p => p.2.fs = none) = none := by
    rw [List.find?_eq_none]
    intro p hp
    simpa using hfs p hp
  by_cases hv : ∀ kv ∈ ps, validEnvKey kv.1
  · have hok := buildEnviron_ok_of_valid ps hv
    constructor
    · constructor
      · rintro ⟨e, he⟩
        exfalso
        simp only [moduleConfig.toSysContext, henv, hok, hfind] at he
        split at he <;> simp [NewSysContext] at he
      · rintro ⟨kv, hkv, hbad⟩
        exact absurd (hv kv hkv) hbad
    · intro sys hsys
      simp only [moduleConfig.toSysContext, henv, hok, hfind] at hsys
      split at hsys <;>
        (simp only [NewSysContext, Except.ok.injEq] at hsys; rw [← hsys])
  · push_neg at hv
    obtain ⟨kv, hkv, hbad⟩ := hv
    obtain ⟨e, he⟩ := buildEnviron_error_of_invalid ps ⟨kv, hkv, hbad⟩
    constructor
    · constructor
      · intro _
        exact ⟨kv, hkv, hbad⟩
      · intro _
        refine ⟨e, ?_⟩
        simp only [moduleConfig.toSysContext, henv, he]
    · intro sys hsys
      simp only [moduleConfig.toSysContext, henv, he] at hsys
      simp at hsys

/-- Witness for C8: the configuration holding the single environment pair
`a=b` (bytes 97, 98) converts without error. -/
theorem c8_toSysContext_env_validation_witness :
    ¬(∃ e, (cfgC1.toSysContext cfgH1).2 = .error e) := by
  have hc := c8_toSysContext_env_validation cfgH1 cfgC1 [([97], [98])]
    (by decide) (by decide)
  rw [hc.1]
  decide

/-- C10: evaluating `WithEnv` at a receiver that already holds the key shows
the in-place write through the shared slice backing array: the receiver
built by `NewModuleConfig().WithEnv("a","b")` observably changes from
environment pair list `a b` to `a c` when `WithEnv("a","c")` is called on
it, even though the documentation on `ModuleConfig` says each `With` method
returns a new instance and the configuration is immutable. The returned
configuration does contain the change. Bytes: a=97, b=98, c=99. -/
theorem c10_withEnv_mutates_receiver :
    cfgH1.readSlice cfgC1.environ = [[97], [98]] ∧
    cfgH2.readSlice cfgC2.environ = [[97], [99]] ∧
    cfgH2.readSlice cfgC1.environ = [[97], [99]] := by
  decide

/-- C2: the `fd_read` scatter scenario — fd 3 holding `"wazero"`, iovs
`[(18,4),(23,2)]` at offset 1, iovs_count 2, result pointer 26 — returns
errno 0 and leaves `"waze"` at bytes 18..22, `"ro"` at bytes 23..25 and the
little-endian u32 value 6 at offset 26. -/
theorem c2_fd_read_scatter :
    (FdRead c2Ctx 3 1 2 26).1 = .ESUCCESS ∧
    (FdRead c2Ctx 3 1 2 26).1.code = 0 ∧
    (FdRead c2Ctx 3 1 2 26).2.mem.readRange 18 4 = [119, 97, 122, 101] ∧
    (FdRead c2Ctx 3 1 2 26).2.mem.readRange 23 2 = [114, 111] ∧
    (FdRead c2Ctx 3 1 2 26).2.mem.readU32LE 26 = 6 := by
  decide

theorem writeBytes_data_of_ge (m : Memory) (off : Nat) (bs : List Nat) (i : Nat)
    (h : off + bs.length ≤ i) : (m.writeBytes off bs).data i = m.data i := by
  simp only [Memory.writeBytes]
  rw [if_neg (by omega)]

/-- C3: the `args_get` scenario — argv `["a","bc"]` (bytes 97 and 98,99),
argv pointer 7, argv_buf pointer 1 — returns errno 0 and leaves exactly
`?a\0bc\0?<1,0,0,0><3,0,0,0>?` in the first 16 bytes, with every byte
from offset 16 on unchanged. -/
theorem c3_args_get :
    (ArgsGet c3Memory [[97], [98, 99]] 7 1).1 = .ESUCCESS ∧
    (ArgsGet c3Memory [[97], [98, 99]] 7 1).1.code = 0 ∧
    (ArgsGet c3Memory [[97], [98, 99]] 7 1).2.readRange 0 16 =
      [63, 97, 0, 98, 99, 0, 63, 1, 0, 0, 0, 3, 0, 0, 0, 63] ∧
    ∀ i : Nat, (ArgsGet c3Memory [[97], [98, 99]] 7 1).2.data (16 + i) =
      c3Memory.data (16 + i) := by
  refine ⟨by decide, by decide, by decide, ?_⟩
  intro i
  have h : ArgsGet c3Memory [[97], [98, 99]] 7 1 =
      (.ESUCCESS, (c3Memory.writeBytes 1 (nulTerminated [[97], [98, 99]])).writeBytes 7
        (encodeU32List (argOffsets 1 [[97], [98, 99]]))) := rfl
  rw [h]
  have hl1 : (nulTerminated [[97], [98, 99]]).length = 5 := by decide
  have hl2 : (encodeU32List (argOffsets 1 [[97], [98, 99]])).length = 8 := by decide
  rw [writeBytes_data_of_ge _ _ _ _ (by omega), writeBytes_data_of_ge _ _ _ _ (by omega)]

theorem decDeps_incDeps (mods : List (GoStr × ModuleInst)) (n : GoStr) :
    decDeps (incDeps mods n) n = mods := by
  unfold decDeps incDeps
  rw [List.map_map]
  conv_rhs => rw [← List.map_id mods]
  apply List.map_congr_left
  intro p _
  by_cases h : p.1 = n
  · simp [h, Nat.add_sub_cancel]
    rw [← h]
  · simp [h]

theorem releaseImports_resolve (mods : List (GoStr × ModuleInst)) (ns : List GoStr)
    (mods1 : List (GoStr × ModuleInst)) (h : resolveImports mods ns = .ok mods1) :
    releaseImports mods1 ns = mods := by
  induction ns generalizing mods with
  | nil =>
    simp [resolveImports] at h
    simp [releaseImports, h]
  | cons n rest ih =>
    simp only [resolveImports] at h
    split at h
    · have := ih (incDeps mods n) h
      simp only [releaseImports, this, decDeps_incDeps]
    · exact absurd h (by simp)

theorem keys_incDeps (mods : List (GoStr × ModuleInst)) (n : GoStr) :
    (incDeps mods n).map Prod.fst = mods.map Prod.fst := by
  unfold incDeps
  rw [List.map_map]
  apply List.map_congr_left
  intro p _
  by_cases h : p.1 = n <;> simp [h]

theorem keys_resolve (mods : List (GoStr × ModuleInst)) (ns : List GoStr)
    (mods1 : List (GoStr × ModuleInst)) (h : resolveImports mods ns = .ok mods1) :
    mods1.map Prod.fst = mods.map Prod.fst := by
  induction ns generalizing mods with
  | nil =>
    simp [resolveImports] at h
    simp [h]
  | cons n rest ih =>
    simp only [resolveImports] at h
    split at h
    · rw [ih (incDeps mods n) h, keys_incDeps]
    · exact absurd h (by simp)

theorem lookupNone_iff (l : List (GoStr × ModuleInst)) (k : GoStr) :
    l.lookup k = none ↔ ∀ p ∈ l, p.1 ≠ k := by
  induction l with
  | nil => simp
  | cons p rest ih =>
    cases p with
    | mk a b =>
      by_cases h : k = a
      · subst h
        constructor
        · intro hl
          simp [List.lookup] at hl
        · intro hall
          exact absurd rfl (hall (k, b) (List.mem_cons_self _ _))
      · have hbeq : (k == a) = false := by
          simpa using h
        constructor
        · intro hl q hq
          rcases List.mem_cons.1 hq with rfl | hq
          · exact fun hk => h hk.symm
          · exact ih.1 (by simpa [List.lookup, hbeq] using hl) q hq
        · intro hall
          have hres : List.lookup k rest = none :=
            ih.2 (fun q hq => hall q (List.mem_cons_of_mem _ hq))
          simpa [List.lookup, hbeq] using hres

theorem filter_fresh (mods : List (GoStr × ModuleInst)) (name : GoStr)
    (h : ∀ p ∈ mods, p.1 ≠ name) :
    mods.filter (fun p => ¬p.1 = name) = mods := by
  rw [List.filter_eq_self]
  intro p hp
  simpa using h p hp

theorem delete_register (s : Store) (md : ModuleDesc) (name : GoStr)
    (mods1 : List (GoStr × ModuleInst))
    (hfresh : s.modules.lookup name = none)
    (hres : resolveImports s.modules md.imports = .ok mods1) :
    releaseImports ((mods1 ++ [(name, freshInst name md)]).filter
      (fun p => ¬p.1 = name)) md.imports = s.modules := by
  have hkeys := keys_resolve s.modules md.imports mods1 hres
  have hfresh1 : ∀ p ∈ mods1, p.1 ≠ name := by
    intro p hp
    have hmem : p.1 ∈ mods1.map Prod.fst := List.mem_map_of_mem _ hp
    rw [hkeys] at hmem
    obtain ⟨q, hq, hq1⟩ := List.mem_map.1 hmem
    rw [← hq1]
    exact (lookupNone_iff _ _).1 hfresh q hq
  rw [List.filter_append, filter_fresh mods1 name hfresh1]
  have hone : ([(name, freshInst name md)]).filter (fun p => ¬p.1 = name) = [] := by
    simp
  rw [hone, List.append_nil]
  exact releaseImports_resolve s.modules md.imports mods1 hres

/-- C5: instantiation is atomic — a compilation or start-function failure
returns the store exactly as it was and leaves no module under the
requested name, and a successful instantiate followed by close also
restores the store, so instantiate-then-close cycles leave only the
modules present before. -/
theorem c5_instantiate_atomic :
    (∀ (s : Store) (md : ModuleDesc) (name : GoStr),
      ((Instantiate s md name).2 = .error .compilationFailed ∨
        (Instantiate s md name).2 = .error .startFailed) →
      (Instantiate s md name).1 = s ∧
      (Instantiate s md name).1.modules.lookup name = none) ∧
    (∀ (s : Store) (md : ModuleDesc) (name : GoStr) (m : ModuleInst) (code : Nat),
      (Instantiate s md name).2 = .ok m →
      (CloseWithExitCode (Instantiate s md name).1 m code).1 = s) := by
  constructor
  · intro s md name herr
    by_cases hdup : (s.modules.lookup name).isSome = true
    · exfalso
      have hI : Instantiate s md name = (s, .error .alreadyInstantiated) := by
        simp [Instantiate, hdup]
      rw [hI] at herr
      rcases herr with h | h <;> simp at h
    · have hfresh : s.modules.lookup name = none := by
        rcases h2 : s.modules.lookup name with _ | v
        · rfl
        · rw [h2] at hdup
          simp at hdup
      cases hres : resolveImports s.modules md.imports with
      | error e =>
        have hI : Instantiate s md name = (s, .error e) := by
          simp [Instantiate, hfresh, hres]
        rw [hI]
        exact ⟨rfl, hfresh⟩
      | ok mods1 =>
        by_cases hc : md.compileOk = true
        · by_cases hst : md.startOk = true
          · exfalso
            have hI : Instantiate s md name =
                ({ modules := mods1 ++ [(name, freshInst name md)] }, .ok (freshInst name md)) := by
              simp [Instantiate, hfresh, hres, hc, hst, freshInst]
            rw [hI] at herr
            rcases herr with h | h <;> simp at h
          · have hI : Instantiate s md name =
                (deleteModule { modules := mods1 ++ [(name, freshInst name md)] }
                  (freshInst name md), .error .startFailed) := by
              simp [Instantiate, hfresh, hres, hc, hst, freshInst]
            rw [hI]
            have hdel := delete_register s md name mods1 hfresh hres
            constructor
            · cases s with
              | mk mods =>
                simp only [deleteModule, freshInst] at hdel ⊢
                rw [hdel]
            · simp only [deleteModule, freshInst] at hdel ⊢
              rw [hdel]
              exact hfresh
        · have hI : Instantiate s md name =
              ({ modules := releaseImports mods1 md.imports }, .error .compilationFailed) := by
            simp [Instantiate, hfresh, hres, hc, freshInst]
          rw [hI]
          have hrel := releaseImports_resolve s.modules md.imports mods1 hres
          constructor
          · cases s with
            | mk mods =>
              simp only at hrel ⊢
              rw [hrel]
          · simp only
            rw [hrel]
            exact hfresh
  · intro s md name m code hok
    by_cases hdup : (s.modules.lookup name).isSome = true
    · exfalso
      have hI : Instantiate s md name = (s, .error .alreadyInstantiated) := by
        simp [Instantiate, hdup]
      rw [hI] at hok
      simp at hok
    · have hfresh : s.modules.lookup name = none := by
        rcases h2 : s.modules.lookup name with _ | v
        · rfl
        · rw [h2] at hdup
          simp at hdup
      cases hres : resolveImports s.modules md.imports with
      | error e =>
        exfalso
        have hI : Instantiate s md name = (s, .error e) := by
          simp [Instantiate, hfresh, hres]
        rw [hI] at hok
        simp at hok
      | ok mods1 =>
        by_cases hc : md.compileOk = true
        · by_cases hst : md.startOk = true
          · have hI : Instantiate s md name =
                ({ modules := mods1 ++ [(name, freshInst name md)] }, .ok (freshInst name md)) := by
              simp [Instantiate, hfresh, hres, hc, hst, freshInst]
            rw [hI] at hok ⊢
            have hm : m = freshInst name md := by
              cases hok
              rfl
            subst hm
            rw [CloseWithExitCode, if_neg (fun hcl => hcl rfl)]
            have hdel := delete_register s md name mods1 hfresh hres
            cases s with
            | mk mods =>
              simp only [deleteModule, freshInst] at hdel ⊢
              rw [hdel]
          · exfalso
            have hI : Instantiate s md name =
                (deleteModule { modules := mods1 ++ [(name, freshInst name md)] }
                  (freshInst name md), .error .startFailed) := by
              simp [Instantiate, hfresh, hres, hc, hst, freshInst]
            rw [hI] at hok
            simp at hok
        · exfalso
          have hI : Instantiate s md name =
              ({ modules := releaseImports mods1 md.imports }, .error .compilationFailed) := by
            simp [Instantiate, hfresh, hres, hc, freshInst]
          rw [hI] at hok
          simp at hok

/-- Witness for C5: a store holding one module `"i"` (byte 105); a module
that fails engine compilation leaves the store untouched, and a successful
instantiate-then-close of an importer `"t"` (byte 116) restores it. -/
theorem c5_instantiate_atomic_witness :
    ((Instantiate ⟨[([105], { name := [105], closed := 0, imports := [], deps := 0 })]⟩
        { imports := [[105]], compileOk := false, startOk := true } [116]).1 =
      ⟨[([105], { name := [105], closed := 0, imports := [], deps := 0 })]⟩ ∧
      (Instantiate ⟨[([105], { name := [105], closed := 0, imports := [], deps := 0 })]⟩
        { imports := [[105]], compileOk := false, startOk := true } [116]).1.modules.lookup
          [116] = none) ∧
    (CloseWithExitCode
      (Instantiate ⟨[([105], { name := [105], closed := 0, imports := [], deps := 0 })]⟩
        { imports := [[105]], compileOk := true, startOk := true } [116]).1
      (freshInst [116] { imports := [[105]], compileOk := true, startOk := true }) 0).1 =
      ⟨[([105], { name := [105], closed := 0, imports := [], deps := 0 })]⟩ :=
  ⟨c5_instantiate_atomic.1 _ _ _ (Or.inl rfl),
   c5_instantiate_atomic.2 _ _ _ _ 0 rfl⟩

/-- C6: `CloseWithExitCode` is idempotent — closing an already-closed
module (in particular, re-closing right after a successful close) is a
successful no-op: the store map and the module handle are exactly as the
first close left them, so nothing is freed twice. -/
theorem c6_close_idempotent (s : Store) (m : ModuleInst) (code code2 : Nat) :
    CloseWithExitCode (CloseWithExitCode s m code).1 (CloseWithExitCode s m code).2 code2 =
      CloseWithExitCode s m code := by
  by_cases h : m.closed = 0
  · have h1 : CloseWithExitCode s m code =
        (deleteModule s m, { m with closed := 1 + code % 4294967296 * 4294967296 }) := by
      rw [CloseWithExitCode, if_neg (fun hc => hc h)]
    rw [h1]
    rw [CloseWithExitCode, if_pos]
    show (1 + code % 4294967296 * 4294967296 : Nat) ≠ 0
    omega
  · have h1 : CloseWithExitCode s m code = (s, m) := by
      rw [CloseWithExitCode, if_pos h]
    rw [h1]
    show CloseWithExitCode s m code2 = (s, m)
    rw [CloseWithExitCode, if_pos h]

/-- Witness for C6: closing a concrete open module twice is a no-op the
second time (instantiating the universally quantified statement at a
concrete store, module and codes). -/
theorem c6_close_idempotent_witness :
    CloseWithExitCode
        (CloseWithExitCode ⟨[([109], { name := [109], closed := 0, imports := [], deps := 0 })]⟩
          { name := [109], closed := 0, imports := [], deps := 0 } 2).1
        (CloseWithExitCode ⟨[([109], { name := [109], closed := 0, imports := [], deps := 0 })]⟩
          { name := [109], closed := 0, imports := [], deps := 0 } 2).2 2 =
      CloseWithExitCode ⟨[([109], { name := [109], closed := 0, imports := [], deps := 0 })]⟩
        { name := [109], closed := 0, imports := [], deps := 0 } 2 :=
  c6_close_idempotent _ _ 2 2

/-- C4: a call that terminates by `proc_exit(code)` returns the exit error
holding the module name and the code, with nothing after the `proc_exit`
executing; and a call on a module closed with an exit code fails with the
exit error holding that module's name and code. Both hold for
`exit_code = 0`, which is still an error-valued return. -/
theorem c4_exit_error :
    (∀ (m : ModuleInst) (tags : List Nat) (code : Nat) (post : List Instr),
      m.closed = 0 →
      callExported m (tags.map .observe ++ .procExit code :: post) =
        (tags, .error { moduleName := m.name, exitCode := code })) ∧
    (∀ (s : Store) (m : ModuleInst) (code : Nat) (body : List Instr),
      m.closed = 0 → code < 4294967296 →
      callExported (CloseWithExitCode s m code).2 body =
        ([], .error { moduleName := m.name, exitCode := code })) := by
  constructor
  · intro m tags code post hopen
    rw [callExported, if_neg (fun hc => hc hopen)]
    induction tags with
    | nil => rfl
    | cons t rest ih =>
      simp only [List.map_cons, List.cons_append, runBody, List.append_eq, ih]
  · intro s m code body hopen hlt
    rw [CloseWithExitCode, if_neg (fun hc => hc hopen)]
    have hne : ({ m with closed := 1 + code % 4294967296 * 4294967296 } : ModuleInst).closed ≠
        0 := by
      show 1 + code % 4294967296 * 4294967296 ≠ 0
      omega
    show callExported { m with closed := 1 + code % 4294967296 * 4294967296 } body = _
    rw [callExported, if_pos hne]
    have hcode : exitCodeOf
        ({ m with closed := 1 + code % 4294967296 * 4294967296 } : ModuleInst).closed = code := by
      show exitCodeOf (1 + code % 4294967296 * 4294967296) = code
      rw [Nat.mod_eq_of_lt hlt, exitCodeOf, Nat.add_mul_div_right 1 code (by norm_num)]
      norm_num
    rw [hcode]

/-- Witness for C4: module `"m"` (byte 109); a body observing 5, calling
`proc_exit(2)`, then observing 7 returns the exit error `(m, 2)` with only
the 5 observed; and after closing with exit code 2 a call fails with the
same error. -/
theorem c4_exit_error_witness :
    callExported { name := [109], closed := 0, imports := [], deps := 0 }
        ([5].map .observe ++ .procExit 2 :: [.observe 7]) =
      ([5], .error { moduleName := [109], exitCode := 2 }) ∧
    callExported (CloseWithExitCode ⟨[]⟩
        { name := [109], closed := 0, imports := [], deps := 0 } 2).2 [.observe 7] =
      ([], .error { moduleName := [109], exitCode := 2 }) :=
  ⟨c4_exit_error.1 { name := [109], closed := 0, imports := [], deps := 0 }
      [5] 2 [.observe 7] rfl,
   c4_exit_error.2 ⟨[]⟩ { name := [109], closed := 0, imports := [], deps := 0 }
      2 [.observe 7] rfl (by norm_num)⟩

/-! ### Unreachable-state lemmas -/

theorem emit_unreachable (s : CState) (ops : List Operation)
    (h : s.unreachableOn = true) : emit s ops = s := by
  simp [emit, h]

theorem bumpLabelCaller_Operations (r : CompilationResult) (l : Option IRLabel) (n : Nat) :
    (bumpLabelCaller r l n).Operations = r.Operations := by
  simp [bumpLabelCaller]

theorem applyToStack_unreachable (sigOf : SigFn) (s : CState) (b : Nat) (op : Op)
    (s1 : CState) (idx : Option Nat) (h : s.unreachableOn = true)
    (hok : applyToStack sigOf s b op = .ok (s1, idx)) :
    ∃ k, s1 = { s with pc := s.pc + k } := by
  unfold applyToStack at hok
  split at hok
  · split at hok
    · simp at hok
    · unfold applyToStackRest at hok
      rw [if_pos h] at hok
      simp only [Except.ok.injEq, Prod.mk.injEq] at hok
      exact ⟨_, hok.1.symm⟩
  · unfold applyToStackRest at hok
    rw [if_pos h] at hok
    simp only [Except.ok.injEq, Prod.mk.injEq] at hok
    refine ⟨0, ?_⟩
    rw [← hok.1]
    rfl

theorem handleMisc_unreachable (s : CState) (mo : MiscOp) (s2 : CState)
    (hOn : s.unreachableOn = true) (hok : handleMisc s mo = .ok s2) :
    s2.result.Operations = s.result.Operations ∧ s2.unreachableOn = true ∧ s.pc ≤ s2.pc := by
  cases mo <;>
    (simp only [handleMisc] at hok
     repeat' split at hok) <;>
    first
    | (simp at hok
       done)
    | ((try simp only [Except.ok.injEq] at hok)
       subst hok
       refine ⟨?_, ?_, ?_⟩ <;> simp [emit, hOn] <;> omega)

theorem handleVec_unreachable (s : CState) (vo : VecOp) (s2 : CState)
    (hOn : s.unreachableOn = true) (hok : handleVec s vo = .ok s2) :
    s2.result.Operations = s.result.Operations ∧ s2.unreachableOn = true ∧ s.pc ≤ s2.pc := by
  cases vo <;>
    (simp only [handleVec] at hok
     repeat' split at hok) <;>
    first
    | (simp at hok
       done)
    | ((try simp only [Except.ok.injEq] at hok)
       subst hok
       refine ⟨?_, ?_, ?_⟩ <;> simp [emit, hOn] <;> omega)

theorem brTableTargets_unreachable (k : Nat) (s : CState) (s3 : CState)
    (ts : List BranchTargetDrop) (hOn : s.unreachableOn = true)
    (hok : brTableTargets s k = .ok (s3, ts)) :
    s3.result.Operations = s.result.Operations ∧ s3.unreachableOn = true ∧ s.pc ≤ s3.pc := by
  induction k generalizing s ts with
  | zero =>
    simp only [brTableTargets, Except.ok.injEq, Prod.mk.injEq] at hok
    rw [← hok.1]
    exact ⟨rfl, hOn, Nat.le_refl _⟩
  | succ n ih =>
    simp only [brTableTargets] at hok
    repeat' split at hok
    any_goals (simp at hok; done)
    rename_i heq
    simp only [Except.ok.injEq, Prod.mk.injEq] at hok
    obtain ⟨h3, -⟩ := hok
    subst h3
    have hrec := ih _ _ (by simpa using hOn) heq
    refine ⟨?_, hrec.2.1, ?_⟩
    · rw [hrec.1]
      simp [bumpLabelCaller_Operations]
    · refine le_trans ?_ hrec.2.2
      simp

theorem readMemoryImmediate_spec (s s1 : CState) (imm : MemoryImmediate)
    (hok : readMemoryImmediate s = .ok (s1, imm)) :
    ∃ k, s1 = { s with pc := k } ∧ s.pc ≤ k := by
  unfold readMemoryImmediate at hok
  rcases h1 : decodeUint32 (s.body.drop (s.pc + 1)) with - | ⟨a, n1⟩
  · simp [h1] at hok
  · simp only [h1] at hok
    rcases h2 : decodeUint32 (s.body.drop (s.pc + n1 + 1)) with - | ⟨b, n2⟩
    · simp [h2] at hok
    · simp only [h2, Except.ok.injEq, Prod.mk.injEq] at hok
      obtain ⟨h3, -⟩ := hok
      refine ⟨_, h3.symm, ?_⟩
      omega

theorem handleOp_unreachable (s : CState) (op : Op) (idx : Option Nat) (s2 : CState)
    (er : Bool) (hOn : s.unreachableOn = true) (hne : op ≠ Op.elseOp)
    (hne2 : op ≠ Op.endOp) (hok : handleOp s op idx = .ok (s2, er)) :
    s2.result.Operations = s.result.Operations ∧ s2.unreachableOn = true ∧
      s.pc ≤ s2.pc ∧ er = false := by
  cases op
  case elseOp => exact absurd rfl hne
  case endOp => exact absurd rfl hne2
  case miscGroup =>
    simp only [handleOp] at hok
    repeat' split at hok
    any_goals (simp at hok; done)
    rename_i heq
    simp only [Except.ok.injEq, Prod.mk.injEq] at hok
    obtain ⟨h1, h2⟩ := hok
    subst h1
    subst h2
    have h := handleMisc_unreachable _ _ _ (by exact hOn) heq
    refine ⟨h.1, h.2.1, ?_, rfl⟩
    have h3 := h.2.2
    simp only at h3
    omega
  case vecGroup =>
    simp only [handleOp] at hok
    repeat' split at hok
    any_goals (simp at hok; done)
    rename_i heq
    simp only [Except.ok.injEq, Prod.mk.injEq] at hok
    obtain ⟨h1, h2⟩ := hok
    subst h1
    subst h2
    have h := handleVec_unreachable _ _ _ (by exact hOn) heq
    refine ⟨h.1, h.2.1, ?_, rfl⟩
    have h3 := h.2.2
    simp only at h3
    omega
  case brTable =>
    simp only [handleOp] at hok
    rcases hd1 : decodeUint32 (s.body.drop (s.pc + 1)) with - | ⟨numTargets, n⟩
    · simp [hd1] at hok
    · simp only [hd1] at hok
      rcases hbt : brTableTargets { s with pc := s.pc + n } numTargets with e | ⟨s2m, targets⟩
      · simp [hbt] at hok
      · simp only [hbt] at hok
        have hb := brTableTargets_unreachable numTargets _ _ _ (by exact hOn) hbt
        repeat' split at hok
        any_goals (simp at hok; done)
        simp only [Except.ok.injEq, Prod.mk.injEq] at hok
        obtain ⟨h1, h2⟩ := hok
        subst h1
        subst h2
        refine ⟨?_, ?_, ?_, rfl⟩
        · simp [markUnreachable, emit, hb.2.1, bumpLabelCaller_Operations, hb.1]
        · simp [markUnreachable]
        · have h3 := hb.2.2
          simp only at h3
          simp [markUnreachable, emit, hb.2.1]
          omega
  case mem mo =>
    simp only [handleOp] at hok
    repeat' split at hok
    any_goals (simp at hok; done)
    rename_i heq
    obtain ⟨k, hk, hle⟩ := readMemoryImmediate_spec _ _ _ heq
    subst hk
    simp only [Except.ok.injEq, Prod.mk.injEq] at hok
    obtain ⟨h1, h2⟩ := hok
    subst h1
    subst h2
    refine ⟨?_, ?_, ?_, rfl⟩ <;> simp [emit, hOn] <;> omega
  all_goals (
    simp only [handleOp] at hok
    repeat' split at hok
    all_goals first
      | (simp at hok; done)
      | (simp_all; done)
      | ((try simp only [Except.ok.injEq, Prod.mk.injEq] at hok)
         obtain ⟨h1, h2⟩ := hok
         subst h1
         subst h2
         refine ⟨?_, ?_, ?_, rfl⟩ <;>
           simp [emit, markUnreachable, nextID, bumpLabelCaller_Operations, hOn] <;> omega))

theorem c1_enter_unreachable (s : CState) (op : Op) (idx : Option Nat) (s2 : CState)
    (er : Bool)
    (hop : op = .unreachableOp ∨ op = .br ∨ op = .brTable ∨ op = .returnOp)
    (hok : handleOp s op idx = .ok (s2, er)) : s2.unreachableOn = true := by
  rcases hop with rfl | rfl | rfl | rfl <;>
    (simp only [handleOp] at hok
     repeat' split at hok
     all_goals first
       | (simp at hok; done)
       | (simp only [Except.ok.injEq, Prod.mk.injEq] at hok
          obtain ⟨h1, -⟩ := hok
          rw [← h1]
          simp [markUnreachable]))

theorem c1_suppress (sigOf : SigFn) (s : CState) (b : Nat) (op : Op) (s2 : CState)
    (hOn : s.unreachableOn = true) (hget : s.body.get? s.pc = some b)
    (hbyte : opcodeOfByte b = some op) (hne : op ≠ .elseOp) (hne2 : op ≠ .endOp)
    (hok : handleInstruction sigOf s = .ok s2) :
    s2.result.Operations = s.result.Operations ∧ s2.unreachableOn = true ∧
      s.pc < s2.pc := by
  simp only [handleInstruction, hget, hbyte] at hok
  rcases hats : applyToStack sigOf s b op with e | ⟨s1, index⟩
  · simp [hats] at hok
  · simp only [hats] at hok
    obtain ⟨k, hk⟩ := applyToStack_unreachable sigOf s b op s1 index hOn hats
    subst hk
    rcases hop : handleOp { s with pc := s.pc + k } op index with e | ⟨s2x, er⟩
    · simp [hop] at hok
    · simp only [hop] at hok
      obtain ⟨hOps, hOn2, hpc, her⟩ :=
        handleOp_unreachable _ _ _ _ _ (by exact hOn) hne hne2 hop
      subst her
      rw [if_neg (by simp)] at hok
      simp only [Except.ok.injEq] at hok
      rw [← hok]
      have h3 : s.pc + k ≤ s2x.pc := hpc
      exact ⟨hOps, hOn2, by show s.pc < s2x.pc + 1; omega⟩

theorem c1_depth_increment (s : CState) (op : Op) (idx : Option Nat) (s2 : CState)
    (er : Bool) (hOn : s.unreachableOn = true)
    (hop : op = .block ∨ op = .loop ∨ op = .ifOp)
    (hok : handleOp s op idx = .ok (s2, er)) :
    s2.unreachableDepth = s.unreachableDepth + 1 ∧ s2.unreachableOn = true := by
  rcases hop with rfl | rfl | rfl <;>
    (simp only [handleOp] at hok
     repeat' split at hok
     all_goals first
       | (simp at hok; done)
       | (simp_all; done)
       | (simp only [Except.ok.injEq, Prod.mk.injEq] at hok
          obtain ⟨h1, -⟩ := hok
          rw [← h1]
          exact ⟨rfl, hOn⟩))

theorem c1_depth_decrement (s : CState) (idx : Option Nat) (s2 : CState) (er : Bool)
    (hOn : s.unreachableOn = true) (hd : 0 < s.unreachableDepth)
    (hok : handleOp s .endOp idx = .ok (s2, er)) :
    s2 = { s with unreachableDepth := s.unreachableDepth - 1 } := by
  simp only [handleOp] at hok
  rw [if_pos ⟨hOn, hd⟩] at hok
  simp only [Except.ok.injEq, Prod.mk.injEq] at hok
  exact hok.1.symm

theorem c1_end_resume (s : CState) (idx : Option Nat) (frame : controlFrame)
    (s2 : CState) (er : Bool) (hOn : s.unreachableOn = true)
    (hd : s.unreachableDepth = 0) (hlast : s.controlFrames.getLast? = some frame)
    (hok : handleOp s .endOp idx = .ok (s2, er)) :
    s2.unreachableOn = false ∧ s2.controlFrames = s.controlFrames.dropLast ∧
      (s.controlFrames.dropLast ≠ [] →
        s2.stack = s.stack.take frame.originalStackLenWithoutParam.toNat ++
          unsignedTypesOf frame.blockType.results) := by
  simp only [handleOp] at hok
  rw [if_neg (by rintro ⟨-, h2⟩; omega)] at hok
  rw [if_pos hOn] at hok
  simp only [resetUnreachable] at hok
  simp only [hlast] at hok
  split at hok
  · rename_i hemp
    simp only [Except.ok.injEq, Prod.mk.injEq] at hok
    obtain ⟨h1, -⟩ := hok
    rw [← h1]
    refine ⟨rfl, rfl, fun hne => absurd ?_ hne⟩
    simpa using hemp
  · split at hok <;>
      (simp only [Except.ok.injEq, Prod.mk.injEq] at hok
       obtain ⟨h1, -⟩ := hok
       rw [← h1]
       refine ⟨?_, ?_, fun hne => ?_⟩ <;> simp [emit])

theorem c1_else_resume (s : CState) (idx : Option Nat) (frame : controlFrame)
    (s2 : CState) (er : Bool) (hOn : s.unreachableOn = true)
    (hd : s.unreachableDepth = 0) (hlast : s.controlFrames.getLast? = some frame)
    (hok : handleOp s .elseOp idx = .ok (s2, er)) :
    s2.unreachableOn = false ∧
      s2.stack = s.stack.take frame.originalStackLenWithoutParam.toNat ++
        unsignedTypesOf frame.blockType.params ∧
      s2.result.Operations = s.result.Operations ++
        [.Label { frameID := frame.frameID, kind := .Else }] := by
  simp only [handleOp, hlast] at hok
  rw [if_neg (by rintro ⟨-, h2⟩; omega)] at hok
  rw [if_pos hOn] at hok
  simp only [resetUnreachable] at hok
  simp only [Except.ok.injEq, Prod.mk.injEq] at hok
  obtain ⟨h1, -⟩ := hok
  rw [← h1]
  refine ⟨?_, ?_, ?_⟩ <;> simp [emit, opKeep]

/-- **C1**: the unreachable-state machine of IR lowering: (1) `unreachable`,
`br`, `br_table` and `return` enter the unreachable state; (2) in it, any
instruction other than `else`/`end` is decoded for its length (the program
counter strictly advances) but emits no IR operation and leaves the state
unreachable; (3) nested `block`/`loop`/`if` increment the depth counter;
(4) `end` at positive depth only decrements it; (5) `end` at depth zero
drops the originating frame, restores the type stack to the frame's height
followed by the block's declared results, and resumes emission; (6) `else`
at depth zero restores the stack to the frame's height followed by the
block's declared params and resumes emission at the else label. -/
theorem c1_unreachable_state_machine :
    (∀ (s : CState) (op : Op) (idx : Option Nat) (s2 : CState) (er : Bool),
      (op = .unreachableOp ∨ op = .br ∨ op = .brTable ∨ op = .returnOp) →
      handleOp s op idx = .ok (s2, er) → s2.unreachableOn = true) ∧
    (∀ (sigOf : SigFn) (s : CState) (b : Nat) (op : Op) (s2 : CState),
      s.unreachableOn = true → s.body.get? s.pc = some b →
      opcodeOfByte b = some op → op ≠ .elseOp → op ≠ .endOp →
      handleInstruction sigOf s = .ok s2 →
      s2.result.Operations = s.result.Operations ∧ s2.unreachableOn = true ∧
        s.pc < s2.pc) ∧
    (∀ (s : CState) (op : Op) (idx : Option Nat) (s2 : CState) (er : Bool),
      s.unreachableOn = true → (op = .block ∨ op = .loop ∨ op = .ifOp) →
      handleOp s op idx = .ok (s2, er) →
      s2.unreachableDepth = s.unreachableDepth + 1 ∧ s2.unreachableOn = true) ∧
    (∀ (s : CState) (idx : Option Nat) (s2 : CState) (er : Bool),
      s.unreachableOn = true → 0 < s.unreachableDepth →
      handleOp s .endOp idx = .ok (s2, er) →
      s2 = { s with unreachableDepth := s.unreachableDepth - 1 }) ∧
    (∀ (s : CState) (idx : Option Nat) (frame : controlFrame) (s2 : CState) (er : Bool),
      s.unreachableOn = true → s.unreachableDepth = 0 →
      s.controlFrames.getLast? = some frame →
      handleOp s .endOp idx = .ok (s2, er) →
      s2.unreachableOn = false ∧ s2.controlFrames = s.controlFrames.dropLast ∧
        (s.controlFrames.dropLast ≠ [] →
          s2.stack = s.stack.take frame.originalStackLenWithoutParam.toNat ++
            unsignedTypesOf frame.blockType.results)) ∧
    (∀ (s : CState) (idx : Option Nat) (frame : controlFrame) (s2 : CState) (er : Bool),
      s.unreachableOn = true → s.unreachableDepth = 0 →
      s.controlFrames.getLast? = some frame →
      handleOp s .elseOp idx = .ok (s2, er) →
      s2.unreachableOn = false ∧
        s2.stack = s.stack.take frame.originalStackLenWithoutParam.toNat ++
          unsignedTypesOf frame.blockType.params ∧
        s2.result.Operations = s.result.Operations ++
          [.Label { frameID := frame.frameID, kind := .Else }]) :=
  ⟨c1_enter_unreachable, c1_suppress, c1_depth_increment, c1_depth_decrement,
   c1_end_resume, c1_else_resume⟩

/-- Each part of the unreachable-state machine exercised at a concrete
state: `unreachable` enters the state, `nop` is skipped, `block` increments
the depth, `end` decrements it at positive depth, and `end`/`else` at depth
zero resume with the restored stack. -/
theorem c1_unreachable_state_machine_witness :
    (hopState cW .unreachableOp none).unreachableOn = true ∧
    ((hiState sigNone cWnop).result.Operations = cWnop.result.Operations ∧
      (hiState sigNone cWnop).unreachableOn = true ∧
      cWnop.pc < (hiState sigNone cWnop).pc) ∧
    ((hopState cWblock .block none).unreachableDepth =
        cWblock.unreachableDepth + 1 ∧
      (hopState cWblock .block none).unreachableOn = true) ∧
    (hopState cWdepth .endOp none =
      { cWdepth with unreachableDepth := cWdepth.unreachableDepth - 1 }) ∧
    ((hopState cWend .endOp none).unreachableOn = false ∧
      (hopState cWend .endOp none).controlFrames = cWend.controlFrames.dropLast ∧
      (cWend.controlFrames.dropLast ≠ [] →
        (hopState cWend .endOp none).stack =
          cWend.stack.take frW.originalStackLenWithoutParam.toNat ++
            unsignedTypesOf frW.blockType.results)) ∧
    ((hopState cWend .elseOp none).unreachableOn = false ∧
      (hopState cWend .elseOp none).stack =
        cWend.stack.take frW.originalStackLenWithoutParam.toNat ++
          unsignedTypesOf frW.blockType.params ∧
      (hopState cWend .elseOp none).result.Operations = cWend.result.Operations ++
        [.Label { frameID := frW.frameID, kind := .Else }]) :=
  ⟨c1_unreachable_state_machine.1 cW .unreachableOp none _ _ (Or.inl rfl) rfl,
   c1_unreachable_state_machine.2.1 sigNone cWnop 0x01 .nop _ rfl rfl rfl
     (by decide) (by decide) rfl,
   c1_unreachable_state_machine.2.2.1 cWblock .block none _ _ rfl (Or.inl rfl) rfl,
   c1_unreachable_state_machine.2.2.2.1 cWdepth none _ _ rfl (by decide) rfl,
   c1_unreachable_state_machine.2.2.2.2.1 cWend none frW _ _ rfl rfl rfl rfl,
   c1_unreachable_state_machine.2.2.2.2.2 cWend none frW _ _ rfl rfl rfl rfl⟩

/-- **C9**: lowering the 32-bit bitwise opcodes from a reachable state:
`i32.and` emits `OperationAnd{UnsignedInt32}` and `i32.or` emits
`OperationOr{UnsignedInt32}`, but `i32.xor` emits
`OperationXor{UnsignedInt64}` (compiler.go tags `OpcodeI32Xor` with
`UnsignedInt64`), which differs from `OperationXor{UnsignedInt32}` — so the
claim fails for `i32.xor`. -/
theorem c9_i32_bitwise_types :
    (hopState cW (.simple .i32And) none).result.Operations = [.And .U32] ∧
    (hopState cW (.simple .i32Or) none).result.Operations = [.Or .U32] ∧
    (hopState cW (.simple .i32Xor) none).result.Operations = [.Xor .U64] ∧
    (Operation.Xor .U64) ≠ (Operation.Xor .U32) :=
  ⟨rfl, rfl, rfl, by simp⟩

end Wazero
